import Mathlib

/-!
SenseAI_emg8: acquisition loop and button classifier of `src/main.cpp`.

A shallow embedding of the firmware's `main.cpp`:

* `buttonCallback` (lines 384-451) over the file-scope `volatile` control variables,
* the monitoring loop of `buttonHandlerTask` (lines 474-483),
* the body of the `while (true)` acquisition loop of `app_main` (lines 323-372),
* `createAndWriteFile` (lines 112-173) over a scripted storage driver.

Text (`std::string`, `char[]`) is a `List Char`.  Machine integers are `Nat`/`Int` with an
explicit reduction modulo `2 ^ w` at every assignment that can truncate.
-/

namespace EMG8

/-! ## Text formatting (`snprintf`) -/

/-- A `std::string` or NUL-terminated `char` buffer, as its sequence of characters. -/
abbrev Text := List Char

/-- Decimal digits of `n`, most significant first; `fuel` bounds the number of digits. -/
def fmtDecAux : Nat → Nat → Text
  | 0, _ => []
  | fuel + 1, n =>
    if n < 10 then [Nat.digitChar n]
    else fmtDecAux fuel (n / 10) ++ [Nat.digitChar (n % 10)]

/-- The text printed for a non-negative integer by a decimal conversion. -/
def fmtDec (n : Nat) : Text := fmtDecAux (n + 1) n

/-- The conversion `%d` / `%lld` of `printf`: decimal text, with a leading `-` when negative. -/
def fmtD (v : Int) : Text :=
  if v < 0 then '-' :: fmtDec (-v).toNat else fmtDec v.toNat

/-- The call `snprintf(buf, size, ...)` keeps at most `size - 1` characters of the
formatted text. -/
def snprintf (size : Nat) (formatted : Text) : Text := formatted.take (size - 1)

/-- Conversion of an integer to `uint16_t`. -/
def toUInt16 (v : Int) : Nat := (v % 65536).toNat

/-- Conversion of an integer to `uint32_t`. -/
def toUInt32 (v : Int) : Nat := (v % 4294967296).toNat

/-- Conversion of an integer to `uint64_t`. -/
def toUInt64 (v : Int) : Nat := (v % 18446744073709551616).toNat

/-- Conversion of a non-negative integer to `uint32_t`, and `uint32_t` addition. -/
def wrap32 (n : Nat) : Nat := n % 4294967296

/-- Conversion of a non-negative integer to `uint64_t`. -/
def wrap64 (n : Nat) : Nat := n % 18446744073709551616

/-- The value a `uint64_t` bit pattern has when read as `long long` (as `%lld` does). -/
def asInt64 (x : Nat) : Int :=
  if x < 9223372036854775808 then (x : Int) else (x : Int) - 18446744073709551616

/-! ## Control variables and the button callback -/

/-- The file-scope `volatile` variables of lines 46-54. -/
structure Control where
  isRecording : Bool
  ads1Enabled : Bool
  ads2Enabled : Bool
  ads3Enabled : Bool
  ads4Enabled : Bool
  buttonPressStartTime : Nat
  totalButtonPressTime : Nat
  buttonPressed : Bool
  shouldReboot : Bool
  deriving DecidableEq, Repr

/-- The initial values of lines 46-54. -/
def Control.boot : Control :=
  { isRecording := true
    ads1Enabled := true
    ads2Enabled := true
    ads3Enabled := true
    ads4Enabled := true
    buttonPressStartTime := 0
    totalButtonPressTime := 0
    buttonPressed := false
    shouldReboot := false }

/-- What `buttonCallback` does to the outside world: console lines, indicator commands
and task delays, in program order. -/
inductive Effect where
  | print (msg : String)
  | setColor (r g b : Nat)
  | turnOn
  | turnOff
  | delay (ms : Nat)
  deriving DecidableEq, Repr

/-- The statement `if (statusLED) statusLED->setColor(r, g, b);`. -/
def ledColor (led : Bool) (r g b : Nat) : List Effect :=
  if led then [Effect.setColor r g b] else []

/-- One round of the loop of lines 440-446. -/
def whiteFlash : List Effect :=
  [Effect.setColor 255 255 255, Effect.turnOn, Effect.delay 100, Effect.turnOff, Effect.delay 100]

/-- Lines 437-447: the console line and, when the indicator exists, five white flashes. -/
def rebootAck (led : Bool) : List Effect :=
  Effect.print "Rebooting system...\n" ::
    (if led then ((List.range 5).map fun _ => whiteFlash).flatten else [])

/-- The value `pressDuration` of line 392: the `int64_t` millisecond clock minus the
stored `uint32_t` start time, converted to `uint32_t`. -/
def pressDuration (nowUs : Nat) (c : Control) : Nat :=
  toUInt32 (((nowUs / 1000 : Nat) : Int) - (c.buttonPressStartTime : Int))

/-- Lines 396-433: the effect of a release of duration `d` on the recording flag and
the four enable flags. -/
def classify (led : Bool) (d : Nat) (c : Control) : Control × List Effect :=
  if d < 2000 then
    let c1 := { c with isRecording := !c.isRecording }
    if c1.isRecording then
      (c1, Effect.print "Recording started\n" :: ledColor led 0 255 0)
    else
      (c1, Effect.print "Recording stopped\n" :: ledColor led 255 0 0)
  else if d ≥ 2000 ∧ d < 5000 then
    if c.ads1Enabled ∧ c.ads2Enabled ∧ c.ads3Enabled ∧ c.ads4Enabled then
      ({ c with ads1Enabled := false },
        Effect.print "ADC 1 disabled\n" :: ledColor led 255 165 0)
    else if !c.ads1Enabled ∧ c.ads2Enabled ∧ c.ads3Enabled ∧ c.ads4Enabled then
      ({ c with ads2Enabled := false },
        Effect.print "ADC 2 disabled\n" :: ledColor led 255 105 180)
    else if !c.ads1Enabled ∧ !c.ads2Enabled ∧ c.ads3Enabled ∧ c.ads4Enabled then
      ({ c with ads3Enabled := false },
        Effect.print "ADC 3 disabled\n" :: ledColor led 128 0 128)
    else if !c.ads1Enabled ∧ !c.ads2Enabled ∧ !c.ads3Enabled ∧ c.ads4Enabled then
      ({ c with ads4Enabled := false },
        Effect.print "ADC 4 disabled\n" :: ledColor led 255 255 0)
    else
      ({ c with ads1Enabled := true, ads2Enabled := true, ads3Enabled := true,
                ads4Enabled := true },
        Effect.print "All ADCs enabled\n" :: ledColor led 0 255 0)
  else (c, [])

/-- The function `buttonCallback` of lines 384-451.  `led` says whether `statusLED` is
non-null and `nowUs` is the value `esp_timer_get_time()` returns during the call. -/
def buttonCallback (led : Bool) (nowUs : Nat) (c : Control) : Control × List Effect :=
  if !c.buttonPressed then
    ({ c with buttonPressed := true, buttonPressStartTime := wrap32 (nowUs / 1000) },
      [])
  else
    let d := pressDuration nowUs c
    let c1 := { c with buttonPressed := false,
                       totalButtonPressTime := wrap32 (c.totalButtonPressTime + d) }
    let (c2, e2) := classify led d c1
    if c2.totalButtonPressTime ≥ 5000 then
      ({ c2 with shouldReboot := true }, e2 ++ rebootAck led)
    else (c2, e2)

/-- The interrupt registration of line 459 (`GPIO_INTR_ANYEDGE`, argument `nullptr`):
each edge of the button line, rising or falling, runs `buttonCallback`. -/
inductive Edge where
  | Rising
  | Falling
  deriving DecidableEq, Repr

/-- Delivery of one edge to the classifier through the registration of line 459. -/
def deliver (led : Bool) (_edge : Edge) (nowUs : Nat) (c : Control) : Control × List Effect :=
  buttonCallback led nowUs c

/-- A press at clock value `pressUs` followed by its release at clock value `releaseUs`. -/
structure Cycle where
  pressUs : Nat
  releaseUs : Nat
  deriving DecidableEq, Repr

/-- The two callback runs of one press/release cycle. -/
def pressRelease (led : Bool) (c : Control) (cy : Cycle) : Control × List Effect :=
  let r1 := deliver led Edge.Rising cy.pressUs c
  let r2 := deliver led Edge.Falling cy.releaseUs r1.1
  (r2.1, r1.2 ++ r2.2)

/-- The control variables after a sequence of press/release cycles. -/
def runCycles (led : Bool) (c : Control) (cys : List Cycle) : Control :=
  cys.foldl (fun s cy => (pressRelease led s cy).1) c

/-- The control variables and the effects observed after each release of a sequence of
press/release cycles, in order. -/
def releaseTrace (led : Bool) : Control → List Cycle → List (Control × List Effect)
  | _, [] => []
  | c, cy :: rest => pressRelease led c cy :: releaseTrace led (pressRelease led c cy).1 rest

/-- Whether the effects of a release contain the reboot acknowledgment of lines 437-447. -/
def rebootEmitted (led : Bool) (es : List Effect) : Bool :=
  (rebootAck led).isSuffixOf es

/-- The four enable flags, group 1 first. -/
def Control.mask (c : Control) : Bool × Bool × Bool × Bool :=
  (c.ads1Enabled, c.ads2Enabled, c.ads3Enabled, c.ads4Enabled)

/-- The enable flag of sensor group `g` (1 to 4) as the acquisition loop reads it. -/
def Control.groupEnabled (c : Control) (g : Nat) : Bool :=
  match g with
  | 1 => c.ads1Enabled
  | 2 => c.ads2Enabled
  | 3 => c.ads3Enabled
  | 4 => c.ads4Enabled
  | _ => false

/-! ## The monitoring loop of `buttonHandlerTask` -/

/-- What one round of the monitoring loop of lines 474-483 does. -/
inductive MonitorStep where
  | restart
  | sleep (ms : Nat)
  deriving DecidableEq, Repr

/-- Line 482: the milliseconds the monitoring loop sleeps between two looks at
`shouldReboot`. -/
def monitorSleepMs : Nat := 100

/-- One round of the `while (true)` loop of lines 474-483: `esp_restart()` when
`shouldReboot` is set, else a sleep of 100 ms. -/
def monitorRound (c : Control) : MonitorStep :=
  if c.shouldReboot then MonitorStep.restart else MonitorStep.sleep monitorSleepMs

/-- The milliseconds an effect keeps the calling task in `vTaskDelay`. -/
def Effect.delayMs : Effect → Nat
  | Effect.delay ms => ms
  | _ => 0

/-- The time, in microseconds, between the clock reading of a callback run and its end:
the sum of its task delays (lines 443 and 445). -/
def busyUs (es : List Effect) : Nat := 1000 * (es.map Effect.delayMs).sum

/-- The releases that run to their end within one boot, with the control variables and
effects of each.  The handler task runs the callbacks one after the other.  A release
callback ends `busyUs` after its clock reading; line 448, its last statement, stores the
flag then.  Once the flag is stored the monitoring loop, which sleeps `monitorSleepMs`
between two looks, sees it `latencyUs` later and calls `esp_restart()` (clock value
`restartAt`); a callback that has not ended by then never ends, and none runs after it. -/
def bootReleases (led : Bool) (latencyUs : Nat) :
    Control → Option Nat → List Cycle → List (Control × List Effect)
  | _, _, [] => []
  | c, restartAt, cy :: rest =>
    let r := pressRelease led c cy
    let endUs := cy.releaseUs + busyUs r.2
    match restartAt with
    | some t =>
      if endUs ≤ t then r :: bootReleases led latencyUs r.1 (some t) rest else []
    | none =>
      if monitorRound r.1 = MonitorStep.restart then
        r :: bootReleases led latencyUs r.1 (some (endUs + latencyUs)) rest
      else r :: bootReleases led latencyUs r.1 none rest

/-- Whether the clock readings of a sequence of cycles are those of callbacks run one
after the other: each press is read no earlier than the end `freeUs` of the callback
before it, and each release no earlier than its press. -/
def handlerOrder (led : Bool) : Control → Nat → List Cycle → Bool
  | _, _, [] => true
  | c, freeUs, cy :: rest =>
    decide (freeUs ≤ cy.pressUs) && decide (cy.pressUs ≤ cy.releaseUs) &&
      handlerOrder led (pressRelease led c cy).1
        (cy.releaseUs + busyUs (pressRelease led c cy).2) rest

/-! ## The acquisition loop of `app_main` -/

/-- The transducer driver: `adc g i` is the value `ads<g>.readSingleEndedSigned(i)` returns. -/
abbrev AdcRead := Nat → Nat → Int

/-- Line 307. -/
def headerLine : Text :=
  ("ch1_adc1,ch2_adc1,ch3_adc1,ch4_adc1,ch1_adc2,ch2_adc2,ch3_adc2,ch4_adc2," ++
   "ch1_adc3,ch2_adc3,ch3_adc3,ch4_adc3,ch1_adc4,ch2_adc4,ch3_adc4,ch4_adc4\n").toList

/-- Lines 330-337: the four `uint16_t` values of loop round `i` and the buffer `dataLine`
that `snprintf` fills from them. -/
def dataLine (c : Control) (adc : AdcRead) (i : Nat) : Text :=
  let value1 : Nat := if c.ads1Enabled then toUInt16 (adc 1 i) else 0
  let value2 : Nat := if c.ads2Enabled then toUInt16 (adc 2 i) else 0
  let value3 : Nat := if c.ads3Enabled then toUInt16 (adc 3 i) else 0
  let value4 : Nat := if c.ads4Enabled then toUInt16 (adc 4 i) else 0
  snprintf 100
    (fmtD value1 ++ [','] ++ fmtD value2 ++ [','] ++ fmtD value3 ++ [','] ++ fmtD value4)

/-- Lines 339-345: round `i` of the `for` loop appends its `dataLine` to the buffer, and a
comma after it except in the last round. -/
def appendRound (c : Control) (adc : AdcRead) (buf : Text) (i : Nat) : Text :=
  if i < 3 then (buf ++ dataLine c adc i) ++ [','] else buf ++ dataLine c adc i

/-- Lines 326-347: `adcDataBuffer` after it is cleared, filled by the four rounds of the
`for` loop and terminated by a newline. -/
def buildRecord (c : Control) (adc : AdcRead) : Text :=
  (List.range 4).foldl (appendRound c adc) [] ++ ['\n']

/-- The arguments of one call of `createAndWriteFile` made by `app_main`; the loop
discards the result of every such call. -/
structure FileWrite where
  dirPath : Text
  fileName : Text
  content : Text
  deriving DecidableEq, Repr

/-- Lines 315 and 359: the name `data_<t>.csv` written into `currentFilename[64]`.  The
`uint64_t` argument is printed by `%lld`. -/
def dataFileName (t : Nat) : Text :=
  snprintf 64 ("data_".toList ++ fmtD (asInt64 t) ++ ".csv".toList)

/-- Line 304: the name `session_<t>` written into `sessionDir[32]`. -/
def sessionDirName (nowUs : Nat) : Text :=
  snprintf 32 ("session_".toList ++ fmtD ((nowUs / 1000000 : Nat) : Int))

/-- The local variables of `app_main` that live across rounds of the `while` loop.
`sampleCount` is an `int` that the loop keeps between 0 and 10 once storage is
initialised. -/
structure Loop where
  sampleCount : Int
  fileStartTime : Nat
  currentTime : Nat
  currentFilename : Text
  adcDataBuffer : Text
  deriving DecidableEq, Repr

/-- What one round of the loop reads from outside: the control variables (taken as not
changing within the round), the driver readings and the value `esp_timer_get_time()`
returns at line 356. -/
structure TickInput where
  ctl : Control
  adc : AdcRead
  nowUs : Nat

/-- Lines 311-321: the loop variables before the first round, and the header write made
when storage is initialised. -/
def startLoop (sdInitialized : Bool) (sessionDir : Text) (nowUs : Nat) :
    Loop × List FileWrite :=
  let fileStartTime := wrap64 (nowUs / 1000000)
  let s : Loop :=
    { sampleCount := 0
      fileStartTime := fileStartTime
      currentTime := fileStartTime
      currentFilename := dataFileName fileStartTime
      adcDataBuffer := [] }
  (s, if sdInitialized then [⟨sessionDir, s.currentFilename, headerLine⟩] else [])

/-- One round of the `while (true)` loop, lines 323-372, with the calls of
`createAndWriteFile` it makes, in order.  Console output is left out. -/
def tick (sdInitialized : Bool) (sessionDir : Text) (s : Loop) (inp : TickInput) :
    Loop × List FileWrite :=
  if inp.ctl.isRecording then
    let buf := buildRecord inp.ctl inp.adc
    let sampleCount := s.sampleCount + 1
    if sdInitialized ∧ sampleCount ≥ 10 then
      let w : FileWrite := ⟨sessionDir, s.currentFilename, buf⟩
      let currentTime := wrap64 (inp.nowUs / 1000000)
      if toUInt64 ((currentTime : Int) - (s.fileStartTime : Int)) ≥ 60 then
        let name := dataFileName currentTime
        ({ sampleCount := 0
           fileStartTime := currentTime
           currentTime := currentTime
           currentFilename := name
           adcDataBuffer := buf },
          [w, ⟨sessionDir, name, headerLine⟩])
      else
        ({ s with sampleCount := 0, currentTime := currentTime, adcDataBuffer := buf }, [w])
    else
      ({ s with sampleCount := sampleCount, adcDataBuffer := buf }, [])
  else (s, [])

/-- The loop variables after a sequence of rounds and every call of `createAndWriteFile`
made during them, in order. -/
def runTicks (sdInitialized : Bool) (sessionDir : Text) :
    Loop → List TickInput → Loop × List FileWrite
  | s, [] => (s, [])
  | s, inp :: rest =>
    let r := tick sdInitialized sessionDir s inp
    let r2 := runTicks sdInitialized sessionDir r.1 rest
    (r2.1, r.2 ++ r2.2)

/-- The fields of a CSV line: the text before the final newline, cut at each comma. -/
def csvFields (line : Text) : List Text := (line.dropLast).splitOn ','

/-- The number of newline-terminated lines in a text. -/
def lineCount (t : Text) : Nat := t.count '\n'

/-! ## `createAndWriteFile` over the storage driver -/

/-- A FatFs result code; `FR_OK` is the only code that is false as a condition. -/
abbrev FRESULT := Nat

/-- The FatFs code for success. -/
def FR_OK : FRESULT := 0

/-- The FatFs code for a disk error. -/
def FR_DISK_ERR : FRESULT := 1

/-- The FatFs code for "the object exists already". -/
def FR_EXIST : FRESULT := 8

/-- A call of a member function of the storage driver `SD`. -/
inductive SDCall where
  | createDir (path : Text)
  | goToDir (path : Text)
  | createFile (name : Text)
  | openFileAppend (name : Text)
  | fileWrite (content : Text)
  | closeFile
  deriving DecidableEq, Repr

/-- Modelled from the spec: the storage driver class `SD` of `sd_storage_sense.hpp`, which
is not among the sources.  The spec gives its operations as create-directory,
create-file, open-for-append, write, close and change-directory, each returning a result
code.  The model keeps the current directory, the calls made so far, and `script`, the
result codes the driver returns to the coming calls (`FR_OK` once the script is used up). -/
structure SD where
  currentDir : Text
  calls : List SDCall
  script : List FRESULT
  deriving DecidableEq, Repr

/-- Modelled from the spec: the driver takes a call, records it and returns the next
scripted result code. -/
def SD.call (sd : SD) (c : SDCall) : FRESULT × SD :=
  match sd.script with
  | [] => (FR_OK, { sd with calls := sd.calls ++ [c] })
  | r :: rest => (r, { sd with calls := sd.calls ++ [c], script := rest })

/-- Modelled from the spec: `changeDirectory(path)`; on success the current directory is
`path`, on an error it stays what it was. -/
def SD.goToDir (sd : SD) (path : Text) : FRESULT × SD :=
  let r := sd.call (SDCall.goToDir path)
  if r.1 = FR_OK then (r.1, { r.2 with currentDir := path }) else r

/-- The function `createAndWriteFile` of lines 112-173.  `sdCard` is `none` when the
global pointer is null.  Console output is left out. -/
def createAndWriteFile (sdCard : Option SD) (dirPath fileName content : Text) :
    Bool × Option SD :=
  match sdCard with
  | none => (false, none)
  | some sd0 =>
    let currentDir := sd0.currentDir
    let nav : FRESULT × SD :=
      if dirPath ≠ [] ∧ dirPath ≠ ['/'] then
        let r := sd0.call (SDCall.createDir dirPath)
        r.2.goToDir (r.2.currentDir ++ ['/'] ++ dirPath)
      else (FR_OK, sd0)
    if nav.1 ≠ FR_OK then (false, some nav.2)
    else
      let r1 := nav.2.call (SDCall.createFile fileName)
      if r1.1 ≠ FR_OK ∧ r1.1 ≠ FR_EXIST then (false, some r1.2)
      else
        let r2 := r1.2.call (SDCall.openFileAppend fileName)
        if r2.1 ≠ FR_OK then (false, some r2.2)
        else
          let r3 := r2.2.call (SDCall.fileWrite content)
          if r3.1 ≠ FR_OK then (false, some (r3.2.call SDCall.closeFile).2)
          else
            let r4 := r3.2.call SDCall.closeFile
            if r4.1 ≠ FR_OK then (false, some r4.2)
            else (true, some (r4.2.goToDir currentDir).2)

/-- The current directory of the driver after a call of `createAndWriteFile`. -/
def dirAfter (r : Bool × Option SD) : Option Text := r.2.map SD.currentDir

/-! ## Definitions used to state the button claims -/

/-- The value `pressDuration` gets at the release of a cycle that began in the idle
state: line 388 stores the start time and line 392 subtracts it. -/
def cycleDuration (cy : Cycle) : Nat :=
  toUInt32 (((cy.releaseUs / 1000 : Nat) : Int) -
    ((wrap32 (cy.pressUs / 1000) : Nat) : Int))

/-- The five masks of the ring in the order the specification lists them: all enabled,
group 1 off, groups 1-2 off, groups 1-3 off, all off. -/
def ring : List (Bool × Bool × Bool × Bool) :=
  [(true, true, true, true), (false, true, true, true), (false, false, true, true),
   (false, false, false, true), (false, false, false, false)]

/-- One step of the ring as the specification words it: a ring mask goes to the next mask
of the ring, the last one back to the first, and any other mask goes to all-enabled. -/
def ringNext (m : Bool × Bool × Bool × Bool) : Bool × Bool × Bool × Bool :=
  if m ∈ ring then ring.getD ((ring.indexOf m + 1) % ring.length) (true, true, true, true)
  else (true, true, true, true)

/-- The boot state after a press at clock value 0. -/
def pressedAtBoot : Control := (deliver true Edge.Rising 0 Control.boot).1

/-- Four press/release cycles of 1000 ms each. -/
def fourPresses : List Cycle :=
  [⟨0, 1000000⟩, ⟨2000000, 3000000⟩, ⟨4000000, 5000000⟩, ⟨6000000, 7000000⟩]

/-- The state after `fourPresses` from boot and a fifth press at 8 s. -/
def pressedAfterFour : Control :=
  (deliver true Edge.Rising 8000000 (runCycles true Control.boot fourPresses)).1

/-- Five press/release cycles of 1000 ms each. -/
def fivePresses : List Cycle := fourPresses ++ [⟨8000000, 9000000⟩]

/-- The five presses of `fivePresses` and a sixth press of 50 ms, begun when the flashes
that follow the fifth release are over. -/
def sixPresses : List Cycle := fivePresses ++ [⟨10000000, 10050000⟩]

/-- Five press/release cycles of 2000 ms each. -/
def fiveMediumPresses : List Cycle :=
  [⟨0, 2000000⟩, ⟨3000000, 5000000⟩, ⟨6000000, 8000000⟩, ⟨9000000, 11000000⟩,
   ⟨12000000, 14000000⟩]

/-! ## Definitions used to state the record claims -/

/-- The `uint16_t` value the loop holds for group `g` (1 to 4) in round `i` (0 to 3):
the driver reading converted to `uint16_t` when the group is enabled, else 0. -/
def sample (c : Control) (adc : AdcRead) (g i : Nat) : Nat :=
  if c.groupEnabled g then toUInt16 (adc g i) else 0

/-- The sixteen fields of a record in the order the loop emits them: field `k` is the
value of group `k % 4 + 1` in round `k / 4`. -/
def recordFields (c : Control) (adc : AdcRead) : List Text :=
  (List.range 16).map fun k => fmtDec (sample c adc (k % 4 + 1) (k / 4))

/-- Driver readings that tell group and channel apart: channel `i + 1` of group `g`
reads `10 * g + (i + 1)`. -/
def taggedAdc : AdcRead := fun g i => 10 * (g : Int) + (i : Int) + 1

/-- Driver readings that are 0 except for channel 1 of group 1, which reads -1. -/
def negativeAdc : AdcRead := fun g i => if g = 1 ∧ i = 0 then -1 else 0

/-! ## Definitions used to state the loop claims -/

/-- The session directory of a run whose line 304 reads the clock at 0. -/
def bootDir : Text := sessionDirName 0

/-- The loop variables before the first round when line 312 reads the clock at 3 s. -/
def bootLoop : Loop := (startLoop true bootDir 3000000).1

/-- The inputs of `n` consecutive rounds with recording on and all groups enabled, 10 ms
apart; in round `j` (counted from 1) every channel reads `j`. -/
def recordingTicks (n : Nat) : List TickInput :=
  (List.range n).map fun j =>
    { ctl := Control.boot, adc := fun _ _ => ((j + 1 : Nat) : Int),
      nowUs := 3000000 + 10000 * (j + 1) }

/-- A round that reads the clock at `nowUs` with recording on and every channel at 0. -/
def tickAt (nowUs : Nat) : TickInput :=
  { ctl := Control.boot, adc := fun _ _ => 0, nowUs := nowUs }

/-- The loop variables after nine recording rounds from `bootLoop`: the current file was
created at 3 s and nine samples were counted since the last flush. -/
def nineBuffered : Loop := (runTicks true bootDir bootLoop (recordingTicks 9)).1

/-- Ten further rounds, 10 ms apart, after a flush at 70 s. -/
def laterTicks : List TickInput :=
  (List.range 10).map fun j => tickAt (70010000 + 10000 * j)

/-- A mounted card whose current directory is `0:` and whose coming calls return the
codes of `script`. -/
def cardAtRoot (script : List FRESULT) : SD :=
  { currentDir := "0:".toList, calls := [], script := script }

/-- A call for the session directory `session_5` in which the third driver call,
`createFile`, returns `FR_DISK_ERR`. -/
def failedWrite : Bool × Option SD :=
  createAndWriteFile (some (cardAtRoot [FR_OK, FR_OK, FR_DISK_ERR]))
    "session_5".toList "data_5.csv".toList headerLine

/-! ## Facts about decimal text -/

theorem fmtDecAux_eq_digits (fuel n : Nat) (h : n < fuel) :
    fmtDecAux fuel n =
      if n = 0 then ['0'] else ((Nat.digits 10 n).reverse.map Nat.digitChar) := by
  induction fuel generalizing n with
  | zero => omega
  | succ f ih =>
    unfold fmtDecAux
    by_cases h10 : n < 10
    · rw [if_pos h10]
      by_cases h0 : n = 0
      · subst h0; rfl
      · rw [if_neg h0, Nat.digits_of_lt 10 n h0 h10]; rfl
    · rw [if_neg h10]
      have hpos : 0 < n := by omega
      have hq : n / 10 ≠ 0 := by omega
      have hlt : n / 10 < f := by omega
      rw [ih (n / 10) hlt, if_neg hq, if_neg (by omega),
        Nat.digits_def' (by decide : 1 < 10) hpos]
      simp

theorem fmtDec_eq_digits (n : Nat) :
    fmtDec n = if n = 0 then ['0'] else ((Nat.digits 10 n).reverse.map Nat.digitChar) :=
  fmtDecAux_eq_digits (n + 1) n (Nat.lt_succ_self n)

theorem digitChar_not_sep (d : Nat) (h : d < 10) :
    Nat.digitChar d ≠ ',' ∧ Nat.digitChar d ≠ '\n' ∧ Nat.digitChar d ≠ '-' := by
  interval_cases d <;> decide

theorem digitChar_inj (a b : Nat) (ha : a < 10) (hb : b < 10)
    (h : Nat.digitChar a = Nat.digitChar b) : a = b := by
  interval_cases a <;> interval_cases b <;> first | rfl | (exact absurd h (by decide))

theorem mem_fmtDec (n : Nat) (ch : Char) (h : ch ∈ fmtDec n) :
    ∃ d, d < 10 ∧ ch = Nat.digitChar d := by
  rw [fmtDec_eq_digits] at h
  by_cases h0 : n = 0
  · rw [if_pos h0] at h
    exact ⟨0, by decide, by simpa using h⟩
  · rw [if_neg h0] at h
    simp only [List.mem_map, List.mem_reverse] at h
    obtain ⟨d, hd, rfl⟩ := h
    exact ⟨d, Nat.digits_lt_base (by decide) hd, rfl⟩

theorem comma_not_mem_fmtDec (n : Nat) : ',' ∉ fmtDec n := by
  intro h
  obtain ⟨d, hd, hc⟩ := mem_fmtDec n ',' h
  exact (digitChar_not_sep d hd).1 hc.symm

theorem newline_not_mem_fmtDec (n : Nat) : '\n' ∉ fmtDec n := by
  intro h
  obtain ⟨d, hd, hc⟩ := mem_fmtDec n '\n' h
  exact (digitChar_not_sep d hd).2.1 hc.symm

theorem fmtDec_length_le (n k : Nat) (hk : 0 < k) (h : n < 10 ^ k) :
    (fmtDec n).length ≤ k := by
  rw [fmtDec_eq_digits]
  by_cases h0 : n = 0
  · rw [if_pos h0]; simpa using hk
  · rw [if_neg h0]
    simp only [List.length_map, List.length_reverse]
    have h1 := Nat.base_pow_length_digits_le 10 n (by decide) h0
    have h2 : 10 ^ (Nat.digits 10 n).length < 10 ^ (k + 1) := by
      rw [pow_succ]; omega
    have h3 := (Nat.pow_lt_pow_iff_right (by decide : 1 < 10)).1 h2
    omega

theorem fmtDec_injective (a b : Nat) (h : fmtDec a = fmtDec b) : a = b := by
  have key : ∀ n, n ≠ 0 → Nat.digits 10 n ≠ [] := fun n hn =>
    (Nat.digits_ne_nil_iff_ne_zero).2 hn
  have hmapinj : ∀ l₁ l₂ : List Nat, (∀ d ∈ l₁, d < 10) → (∀ d ∈ l₂, d < 10) →
      l₁.map Nat.digitChar = l₂.map Nat.digitChar → l₁ = l₂ := by
    intro l₁
    induction l₁ with
    | nil => intro l₂ _ _ h; cases l₂ with
      | nil => rfl
      | cons _ _ => simp at h
    | cons x xs ih =>
      intro l₂ h1 h2 h
      cases l₂ with
      | nil => simp at h
      | cons y ys =>
        simp only [List.map_cons, List.cons.injEq] at h
        have hxy := digitChar_inj x y (h1 x (by simp)) (h2 y (by simp)) h.1
        have := ih ys (fun d hd => h1 d (by simp [hd])) (fun d hd => h2 d (by simp [hd])) h.2
        rw [hxy, this]
  have hdig : ∀ n, ∀ d ∈ (Nat.digits 10 n).reverse, d < 10 := fun n d hd =>
    Nat.digits_lt_base (by decide) (List.mem_reverse.1 hd)
  have hzero : ∀ n, n ≠ 0 → ((Nat.digits 10 n).reverse.map Nat.digitChar) ≠ ['0'] := by
    intro n hn hcon
    have h1 : (Nat.digits 10 n).reverse = [0] :=
      hmapinj _ [0] (hdig n) (by simp) (by simpa using hcon)
    have h2 : Nat.digits 10 n = [0] := by
      have := congrArg List.reverse h1
      simpa using this
    have hl := Nat.getLast_digit_ne_zero 10 hn
    simp [h2] at hl
  rw [fmtDec_eq_digits, fmtDec_eq_digits] at h
  by_cases ha : a = 0 <;> by_cases hb : b = 0
  · rw [ha, hb]
  · rw [if_pos ha, if_neg hb] at h; exact absurd h.symm (hzero b hb)
  · rw [if_neg ha, if_pos hb] at h; exact absurd h (hzero a ha)
  · rw [if_neg ha, if_neg hb] at h
    have h1 := hmapinj _ _ (hdig a) (hdig b) h
    have h2 : Nat.digits 10 a = Nat.digits 10 b := by
      have := congrArg List.reverse h1
      simpa using this
    exact Nat.digits_inj_iff.1 h2

/-! ## The button callback -/

theorem buttonCallback_idle (led : Bool) (nowUs : Nat) (c : Control)
    (h : c.buttonPressed = false) :
    buttonCallback led nowUs c =
      ({ c with buttonPressed := true, buttonPressStartTime := wrap32 (nowUs / 1000) }, []) := by
  unfold buttonCallback
  rw [if_pos (by simp [h])]

theorem classify_frame (led : Bool) (d : Nat) (c : Control) :
    (classify led d c).1.buttonPressed = c.buttonPressed ∧
    (classify led d c).1.buttonPressStartTime = c.buttonPressStartTime ∧
    (classify led d c).1.totalButtonPressTime = c.totalButtonPressTime ∧
    (classify led d c).1.shouldReboot = c.shouldReboot := by
  unfold classify
  simp only []
  split_ifs <;> exact ⟨rfl, rfl, rfl, rfl⟩

theorem buttonCallback_pressed (led : Bool) (nowUs : Nat) (c : Control)
    (h : c.buttonPressed = true) :
    buttonCallback led nowUs c =
      if (classify led (pressDuration nowUs c)
            { c with buttonPressed := false,
                     totalButtonPressTime :=
                       wrap32 (c.totalButtonPressTime + pressDuration nowUs c) }).1.totalButtonPressTime
          ≥ 5000 then
        ({ (classify led (pressDuration nowUs c)
            { c with buttonPressed := false,
                     totalButtonPressTime :=
                       wrap32 (c.totalButtonPressTime + pressDuration nowUs c) }).1 with
            shouldReboot := true },
         (classify led (pressDuration nowUs c)
            { c with buttonPressed := false,
                     totalButtonPressTime :=
                       wrap32 (c.totalButtonPressTime + pressDuration nowUs c) }).2 ++ rebootAck led)
      else
        classify led (pressDuration nowUs c)
            { c with buttonPressed := false,
                     totalButtonPressTime :=
                       wrap32 (c.totalButtonPressTime + pressDuration nowUs c) } := by
  unfold buttonCallback
  rw [if_neg (by simp [h])]

/-- Claim C5, as stated, fails: from the boot state a Falling edge while idle sets the
press state and the start time, and a Rising edge one second after a press (while
pressed) is handled as a release that stops recording and adds 1000 ms to the held time. -/
theorem duplicate_edges_are_not_noops :
    (deliver true Edge.Falling 7000000 Control.boot).1.buttonPressed = true ∧
    (deliver true Edge.Falling 7000000 Control.boot).1.buttonPressStartTime = 7000 ∧
    Control.boot.buttonPressed = false ∧
    Control.boot.buttonPressStartTime = 0 ∧
    pressedAtBoot.buttonPressed = true ∧
    pressedAtBoot.isRecording = true ∧
    pressedAtBoot.totalButtonPressTime = 0 ∧
    (deliver true Edge.Rising 1000000 pressedAtBoot).1.buttonPressed = false ∧
    (deliver true Edge.Rising 1000000 pressedAtBoot).1.isRecording = false ∧
    (deliver true Edge.Rising 1000000 pressedAtBoot).1.totalButtonPressTime = 1000 := by
  decide

/-- Claim C5, amended: the callback does not look at the polarity of the edge.  Any edge
delivered while idle is handled as a press: it sets the press state and stores the
clock (in ms, as `uint32_t`) as start time, and leaves the held time, the recording
flag, the four enable flags and the reboot flag unchanged, with no outside effect.  Any
edge delivered while pressed is handled as a release, a Rising edge exactly as a
Falling one: the press state is cleared and the duration since the stored start time is
added to the cumulative held time. -/
theorem edge_handled_by_press_state (led : Bool) (e : Edge) (nowUs : Nat) (c : Control) :
    (c.buttonPressed = false →
      deliver led e nowUs c =
        ({ c with buttonPressed := true, buttonPressStartTime := (nowUs / 1000) % 2 ^ 32 },
          [])) ∧
    (c.buttonPressed = true →
      deliver led e nowUs c = deliver led Edge.Falling nowUs c ∧
      (deliver led e nowUs c).1.buttonPressed = false ∧
      (deliver led e nowUs c).1.buttonPressStartTime = c.buttonPressStartTime ∧
      (deliver led e nowUs c).1.totalButtonPressTime =
        (c.totalButtonPressTime + pressDuration nowUs c) % 2 ^ 32) := by
  refine ⟨fun h => ?_, fun h => ?_⟩
  · unfold deliver
    rw [buttonCallback_idle led nowUs c h]
    rfl
  · unfold deliver
    rw [buttonCallback_pressed led nowUs c h]
    have hf := classify_frame led (pressDuration nowUs c)
      { c with buttonPressed := false,
               totalButtonPressTime := wrap32 (c.totalButtonPressTime + pressDuration nowUs c) }
    obtain ⟨h1, h2, h3, _⟩ := hf
    refine ⟨rfl, ?_, ?_, ?_⟩
    · split_ifs
      · exact h1
      · exact h1
    · split_ifs
      · exact h2
      · exact h2
    · split_ifs
      · exact h3
      · exact h3

/-- Witness of `edge_handled_by_press_state` at the boot state and one second later. -/
theorem edge_handled_by_press_state_witness :
    (deliver true Edge.Falling 7000000 Control.boot =
      ({ Control.boot with buttonPressed := true, buttonPressStartTime := 7000 }, [])) ∧
    ((deliver true Edge.Rising 1000000 pressedAtBoot).1.buttonPressed = false ∧
     (deliver true Edge.Rising 1000000 pressedAtBoot).1.totalButtonPressTime = 1000) :=
  ⟨(edge_handled_by_press_state true Edge.Falling 7000000 Control.boot).1 (by decide),
   ((edge_handled_by_press_state true Edge.Rising 1000000 pressedAtBoot).2 (by decide)).2.1,
   by
    have h := ((edge_handled_by_press_state true Edge.Rising 1000000 pressedAtBoot).2
      (by decide)).2.2.2
    rw [h]; decide⟩

/-- Claim C6, as stated, fails: after four 1000 ms presses from boot (4000 ms held, no
reboot requested) a fifth press of 1500 ms, shorter than 2000 ms, sets the reboot flag. -/
theorem short_press_can_request_reboot :
    pressedAfterFour.buttonPressed = true ∧
    pressedAfterFour.totalButtonPressTime = 4000 ∧
    pressDuration 9500000 pressedAfterFour = 1500 ∧
    pressedAfterFour.shouldReboot = false ∧
    (buttonCallback true 9500000 pressedAfterFour).1.shouldReboot = true := by
  decide

/-- Claim C6, amended: a release whose press lasted less than 2000 ms negates the
recording flag, keeps the four enable flags, adds the duration to the cumulative held
time (as `uint32_t`), and leaves the reboot flag unchanged when the new cumulative held
time is below 5000 ms; when it is 5000 ms or more the reboot flag is set. -/
theorem short_press_toggles_recording (led : Bool) (nowUs : Nat) (c : Control)
    (hp : c.buttonPressed = true) (hd : pressDuration nowUs c < 2000) :
    (buttonCallback led nowUs c).1.isRecording = (!c.isRecording) ∧
    (buttonCallback led nowUs c).1.mask = c.mask ∧
    (buttonCallback led nowUs c).1.buttonPressed = false ∧
    (buttonCallback led nowUs c).1.totalButtonPressTime =
      (c.totalButtonPressTime + pressDuration nowUs c) % 2 ^ 32 ∧
    ((buttonCallback led nowUs c).1.totalButtonPressTime < 5000 →
      (buttonCallback led nowUs c).1.shouldReboot = c.shouldReboot) ∧
    (5000 ≤ (buttonCallback led nowUs c).1.totalButtonPressTime →
      (buttonCallback led nowUs c).1.shouldReboot = true) := by
  rw [buttonCallback_pressed led nowUs c hp]
  unfold classify
  rw [if_pos hd]
  simp only []
  split_ifs <;> simp_all [Control.mask, wrap32]

/-- Witness of `short_press_toggles_recording`: the 1500 ms press from the boot state
toggles recording only, adds 1500 ms to the held time, requests no reboot and changes no
enable flag. -/
theorem short_press_toggles_recording_witness :
    pressedAtBoot.buttonPressed = true ∧ pressDuration 1500000 pressedAtBoot < 2000 ∧
    (buttonCallback true 1500000 pressedAtBoot).1.isRecording = false ∧
    (buttonCallback true 1500000 pressedAtBoot).1.mask = Control.boot.mask ∧
    (buttonCallback true 1500000 pressedAtBoot).1.totalButtonPressTime = 1500 ∧
    (buttonCallback true 1500000 pressedAtBoot).1.shouldReboot = false := by
  have h := short_press_toggles_recording true 1500000 pressedAtBoot (by decide) (by decide)
  refine ⟨by decide, by decide, h.1, h.2.1, ?_, ?_⟩
  · rw [h.2.2.2.1]; decide
  · rw [h.2.2.2.2.1 (by rw [h.2.2.2.1]; decide)]; decide

theorem pressRelease_idle (led : Bool) (c : Control) (cy : Cycle)
    (h : c.buttonPressed = false) :
    pressRelease led c cy =
      buttonCallback led cy.releaseUs
        { c with buttonPressed := true, buttonPressStartTime := wrap32 (cy.pressUs / 1000) } ∧
    pressDuration cy.releaseUs
        { c with buttonPressed := true, buttonPressStartTime := wrap32 (cy.pressUs / 1000) } =
      cycleDuration cy := by
  unfold pressRelease deliver
  rw [buttonCallback_idle led cy.pressUs c h]
  exact ⟨by simp, rfl⟩

theorem classify_medium (led : Bool) (d : Nat) (c : Control)
    (h1 : 2000 ≤ d) (h2 : d < 5000) :
    (classify led d c).1.mask = ringNext c.mask ∧
    (classify led d c).1.isRecording = c.isRecording := by
  have hn : ¬ d < 2000 := by omega
  have hm : d ≥ 2000 ∧ d < 5000 := ⟨h1, h2⟩
  unfold classify
  simp only [if_neg hn, if_pos hm]
  obtain ⟨r, a1, a2, a3, a4, st, tot, bp, sr⟩ := c
  cases a1 <;> cases a2 <;> cases a3 <;> cases a4 <;>
    exact ⟨by simp [Control.mask]; decide, by simp⟩

theorem release_fields (led : Bool) (nowUs : Nat) (c : Control)
    (hp : c.buttonPressed = true) :
    (buttonCallback led nowUs c).1.mask =
      (classify led (pressDuration nowUs c)
        { c with buttonPressed := false,
                 totalButtonPressTime :=
                   wrap32 (c.totalButtonPressTime + pressDuration nowUs c) }).1.mask ∧
    (buttonCallback led nowUs c).1.isRecording =
      (classify led (pressDuration nowUs c)
        { c with buttonPressed := false,
                 totalButtonPressTime :=
                   wrap32 (c.totalButtonPressTime + pressDuration nowUs c) }).1.isRecording ∧
    (buttonCallback led nowUs c).1.buttonPressed = false ∧
    (buttonCallback led nowUs c).1.totalButtonPressTime =
      wrap32 (c.totalButtonPressTime + pressDuration nowUs c) := by
  rw [buttonCallback_pressed led nowUs c hp]
  obtain ⟨h1, _, h3, _⟩ := classify_frame led (pressDuration nowUs c)
    { c with buttonPressed := false,
             totalButtonPressTime := wrap32 (c.totalButtonPressTime + pressDuration nowUs c) }
  split_ifs
  · exact ⟨rfl, rfl, h1, h3⟩
  · exact ⟨rfl, rfl, h1, h3⟩

theorem medium_release (led : Bool) (nowUs : Nat) (c : Control)
    (hp : c.buttonPressed = true) (h1 : 2000 ≤ pressDuration nowUs c)
    (h2 : pressDuration nowUs c < 5000) :
    (buttonCallback led nowUs c).1.mask = ringNext c.mask ∧
    (buttonCallback led nowUs c).1.isRecording = c.isRecording ∧
    (buttonCallback led nowUs c).1.buttonPressed = false := by
  obtain ⟨e1, e2, e3, _⟩ := release_fields led nowUs c hp
  obtain ⟨m1, m2⟩ := classify_medium led (pressDuration nowUs c)
    { c with buttonPressed := false,
             totalButtonPressTime := wrap32 (c.totalButtonPressTime + pressDuration nowUs c) }
    h1 h2
  exact ⟨e1.trans m1, e2.trans m2, e3⟩

theorem pressRelease_medium (led : Bool) (c : Control) (cy : Cycle)
    (h : c.buttonPressed = false) (h1 : 2000 ≤ cycleDuration cy)
    (h2 : cycleDuration cy < 5000) :
    (pressRelease led c cy).1.mask = ringNext c.mask ∧
    (pressRelease led c cy).1.isRecording = c.isRecording ∧
    (pressRelease led c cy).1.buttonPressed = false := by
  obtain ⟨e1, e2⟩ := pressRelease_idle led c cy h
  rw [e1]
  have := medium_release led cy.releaseUs
    { c with buttonPressed := true, buttonPressStartTime := wrap32 (cy.pressUs / 1000) }
    rfl (by rw [e2]; exact h1) (by rw [e2]; exact h2)
  exact this

theorem runCycles_medium (led : Bool) (cys : List Cycle) :
    ∀ c : Control, c.buttonPressed = false →
      (∀ cy ∈ cys, 2000 ≤ cycleDuration cy ∧ cycleDuration cy < 5000) →
      (runCycles led c cys).mask = ringNext^[cys.length] c.mask ∧
      (runCycles led c cys).isRecording = c.isRecording := by
  induction cys with
  | nil => intro c _ _; exact ⟨rfl, rfl⟩
  | cons cy rest ih =>
    intro c hc hall
    have hcy := hall cy (by simp)
    obtain ⟨m1, m2, m3⟩ := pressRelease_medium led c cy hc hcy.1 hcy.2
    have := ih (pressRelease led c cy).1 m3 (fun x hx => hall x (by simp [hx]))
    unfold runCycles at this ⊢
    rw [List.foldl_cons, this.1, this.2, m1, m2]
    exact ⟨rfl, rfl⟩

theorem ring_period (m : Bool × Bool × Bool × Bool) (hm : m ∈ ring) :
    ringNext^[5] m = m ∧ ∀ k, 0 < k → k < 5 → ringNext^[k] m ≠ m := by
  simp only [ring, List.mem_cons, List.mem_singleton, List.not_mem_nil, or_false] at hm
  rcases hm with rfl | rfl | rfl | rfl | rfl <;>
    exact ⟨by decide, fun k h0 h5 => by interval_cases k <;> decide⟩

/-- Claim C7: starting idle, a sequence of presses each lasting at least 2000 ms and
less than 5000 ms moves the enable mask one ring step per release and keeps the recording
flag; the step sends all-enabled to group 1 off, to groups 1-2 off, to groups 1-3 off, to
all off, back to all-enabled, and every mask outside the ring to all-enabled; from a
ring mask five such presses return to it and one to four presses do not. -/
theorem medium_press_steps_ring (led : Bool) (c : Control) (cys : List Cycle)
    (hidle : c.buttonPressed = false)
    (hmed : ∀ cy ∈ cys, 2000 ≤ cycleDuration cy ∧ cycleDuration cy < 5000) :
    (runCycles led c cys).mask = ringNext^[cys.length] c.mask ∧
    (runCycles led c cys).isRecording = c.isRecording ∧
    ringNext (true, true, true, true) = (false, true, true, true) ∧
    ringNext (false, true, true, true) = (false, false, true, true) ∧
    ringNext (false, false, true, true) = (false, false, false, true) ∧
    ringNext (false, false, false, true) = (false, false, false, false) ∧
    ringNext (false, false, false, false) = (true, true, true, true) ∧
    (∀ m, m ∉ ring → ringNext m = (true, true, true, true)) ∧
    (c.mask ∈ ring → cys.length = 5 → (runCycles led c cys).mask = c.mask) ∧
    (c.mask ∈ ring → 0 < cys.length → cys.length < 5 →
      (runCycles led c cys).mask ≠ c.mask) := by
  obtain ⟨h1, h2⟩ := runCycles_medium led cys c hidle hmed
  refine ⟨h1, h2, by decide, by decide, by decide, by decide, by decide, by decide, ?_, ?_⟩
  · intro hm h5
    rw [h1, h5]
    exact (ring_period c.mask hm).1
  · intro hm h0 h5
    rw [h1]
    exact (ring_period c.mask hm).2 _ h0 h5

/-- Witness of `medium_press_steps_ring`: five presses of 2000 ms from the boot state. -/
theorem medium_press_steps_ring_witness :
    Control.boot.buttonPressed = false ∧
    (∀ cy ∈ fiveMediumPresses, 2000 ≤ cycleDuration cy ∧ cycleDuration cy < 5000) ∧
    (runCycles true Control.boot fiveMediumPresses).mask = Control.boot.mask ∧
    (runCycles true Control.boot (fiveMediumPresses.take 1)).mask =
      (false, true, true, true) :=
  ⟨by decide, by decide,
   (medium_press_steps_ring true Control.boot fiveMediumPresses (by decide) (by decide)).2.2.2.2.2.2.2.2.1
     (by decide) (by decide),
   by
    rw [(medium_press_steps_ring true Control.boot (fiveMediumPresses.take 1) (by decide)
      (by decide)).1]
    decide⟩

theorem classify_no_rebootAck (led : Bool) (d : Nat) (c : Control) :
    rebootEmitted led (classify led d c).2 = false := by
  unfold classify
  simp only []
  cases led <;> split_ifs <;> rfl

theorem rebootEmitted_append (led : Bool) (es : List Effect) :
    rebootEmitted led (es ++ rebootAck led) = true := by
  unfold rebootEmitted
  rw [List.isSuffixOf_iff_suffix]
  exact List.suffix_append es (rebootAck led)

theorem release_reboot (led : Bool) (nowUs : Nat) (c : Control)
    (hp : c.buttonPressed = true) :
    (rebootEmitted led (buttonCallback led nowUs c).2 = true ↔
      5000 ≤ (buttonCallback led nowUs c).1.totalButtonPressTime) ∧
    ((buttonCallback led nowUs c).1.shouldReboot = true ↔
      (c.shouldReboot = true ∨ 5000 ≤ (buttonCallback led nowUs c).1.totalButtonPressTime)) := by
  rw [buttonCallback_pressed led nowUs c hp]
  obtain ⟨_, _, h3, h4⟩ := classify_frame led (pressDuration nowUs c)
    { c with buttonPressed := false,
             totalButtonPressTime := wrap32 (c.totalButtonPressTime + pressDuration nowUs c) }
  have hno := classify_no_rebootAck led (pressDuration nowUs c)
    { c with buttonPressed := false,
             totalButtonPressTime := wrap32 (c.totalButtonPressTime + pressDuration nowUs c) }
  split_ifs with hge
  · refine ⟨⟨fun _ => hge, fun _ => rebootEmitted_append led _⟩, ⟨fun _ => Or.inr hge, fun _ => rfl⟩⟩
  · refine ⟨⟨fun h => ?_, fun h => absurd h hge⟩, ⟨fun h => ?_, fun h => ?_⟩⟩
    · rw [hno] at h; exact absurd h (by decide)
    · left; rw [h4] at h; exact h
    · rcases h with h | h
      · rw [h4]; exact h
      · exact absurd h hge

theorem pressRelease_reboot (led : Bool) (c : Control) (cy : Cycle)
    (h : c.buttonPressed = false) :
    (pressRelease led c cy).1.buttonPressed = false ∧
    (rebootEmitted led (pressRelease led c cy).2 = true ↔
      5000 ≤ (pressRelease led c cy).1.totalButtonPressTime) ∧
    ((pressRelease led c cy).1.shouldReboot = true ↔
      (c.shouldReboot = true ∨ 5000 ≤ (pressRelease led c cy).1.totalButtonPressTime)) := by
  have e1 : pressRelease led c cy =
      buttonCallback led cy.releaseUs
        { c with buttonPressed := true, buttonPressStartTime := wrap32 (cy.pressUs / 1000) } :=
    (pressRelease_idle led c cy h).1
  rw [e1]
  have hr := release_reboot led cy.releaseUs
    { c with buttonPressed := true, buttonPressStartTime := wrap32 (cy.pressUs / 1000) } rfl
  have hf := release_fields led cy.releaseUs
    { c with buttonPressed := true, buttonPressStartTime := wrap32 (cy.pressUs / 1000) } rfl
  exact ⟨hf.2.2.1, hr.1, hr.2⟩

theorem busyUs_append (a b : List Effect) : busyUs (a ++ b) = busyUs a + busyUs b := by
  unfold busyUs
  rw [List.map_append, List.sum_append, Nat.mul_add]

theorem classify_no_delay (led : Bool) (d : Nat) (c : Control) :
    busyUs (classify led d c).2 = 0 := by
  unfold classify
  simp only []
  cases led <;> split_ifs <;> rfl

theorem busyUs_rebootAck : busyUs (rebootAck true) = 1000000 := by
  decide

theorem pressRelease_total (led : Bool) (c : Control) (cy : Cycle)
    (h : c.buttonPressed = false) :
    (pressRelease led c cy).1.totalButtonPressTime =
      wrap32 (c.totalButtonPressTime + cycleDuration cy) := by
  obtain ⟨e1, e2⟩ := pressRelease_idle led c cy h
  rw [e1]
  have hf := (release_fields led cy.releaseUs
    { c with buttonPressed := true, buttonPressStartTime := wrap32 (cy.pressUs / 1000) }
    rfl).2.2.2
  rw [hf, e2]

theorem busyUs_release (c : Control) (cy : Cycle) (h : c.buttonPressed = false) :
    busyUs (pressRelease true c cy).2 =
      if 5000 ≤ (pressRelease true c cy).1.totalButtonPressTime then 1000000 else 0 := by
  rw [(pressRelease_idle true c cy h).1,
    buttonCallback_pressed true cy.releaseUs
      { c with buttonPressed := true, buttonPressStartTime := wrap32 (cy.pressUs / 1000) } rfl]
  split_ifs with h1
  · rw [busyUs_append, classify_no_delay, busyUs_rebootAck]
  · exact classify_no_delay _ _ _

theorem releaseTrace_facts (led : Bool) (cys : List Cycle) :
    ∀ c : Control, c.buttonPressed = false →
      ∀ x ∈ releaseTrace led c cys,
        (rebootEmitted led x.2 = true ↔ 5000 ≤ x.1.totalButtonPressTime) ∧
        (5000 ≤ x.1.totalButtonPressTime → x.1.shouldReboot = true) := by
  induction cys with
  | nil => intro c _ x hx; simp [releaseTrace] at hx
  | cons cy rest ih =>
    intro c hc x hx
    obtain ⟨p1, p2, p3⟩ := pressRelease_reboot led c cy hc
    simp only [releaseTrace, List.mem_cons] at hx
    rcases hx with hx | hx
    · rw [hx]
      exact ⟨p2, fun h => p3.2 (Or.inr h)⟩
    · exact ih _ p1 x hx

theorem releaseTrace_flag_clear (led : Bool) (cys : List Cycle) :
    ∀ (c : Control) (pre post : List (Control × List Effect)),
      c.buttonPressed = false → c.shouldReboot = false →
      releaseTrace led c cys = pre ++ post →
      (∀ x ∈ pre, x.1.totalButtonPressTime < 5000) →
      ∀ x ∈ pre, x.1.shouldReboot = false := by
  induction cys with
  | nil =>
    intro c pre post _ _ hdec _ x hx
    have : pre = [] := by
      have h := hdec.symm
      simp only [releaseTrace, List.append_eq_nil] at h
      exact h.1
    rw [this] at hx
    simp at hx
  | cons cy rest ih =>
    intro c pre post hc hflag hdec hlow x hx
    obtain ⟨p1, _, p3⟩ := pressRelease_reboot led c cy hc
    cases pre with
    | nil => simp at hx
    | cons y pre1 =>
      simp only [releaseTrace, List.cons_append, List.cons.injEq] at hdec
      obtain ⟨hy, hrest⟩ := hdec
      have hylow : y.1.totalButtonPressTime < 5000 := hlow y (by simp)
      have hyflag : y.1.shouldReboot = false := by
        rw [← hy]
        rw [← hy] at hylow
        cases hb : (pressRelease led c cy).1.shouldReboot with
        | false => rfl
        | true =>
          rcases p3.1 hb with h | h
          · rw [hflag] at h; exact absurd h (by decide)
          · omega
      simp only [List.mem_cons] at hx
      rcases hx with hx | hx
      · rw [hx]; exact hyflag
      · exact ih (pressRelease led c cy).1 pre1 post p1 (by rw [hy]; exact hyflag) hrest
          (fun z hz => hlow z (by simp [hz])) x hx

theorem bootReleases_cut (latencyUs : Nat) (rest : List Cycle) (c : Control)
    (freeUs t : Nat) (hc : c.buttonPressed = false)
    (hhigh : 5000 ≤ c.totalButtonPressTime)
    (hsum : c.totalButtonPressTime + (rest.map cycleDuration).sum < 2 ^ 32)
    (horder : handlerOrder true c freeUs rest = true) (ht : t < freeUs + 1000000) :
    bootReleases true latencyUs c (some t) rest = [] := by
  cases rest with
  | nil => rfl
  | cons cy rest1 =>
    simp only [handlerOrder, Bool.and_eq_true, decide_eq_true_eq] at horder
    simp only [List.map_cons, List.sum_cons] at hsum
    have htot := pressRelease_total true c cy hc
    have hw : wrap32 (c.totalButtonPressTime + cycleDuration cy) =
        c.totalButtonPressTime + cycleDuration cy := by
      unfold wrap32; omega
    rw [hw] at htot
    have hbusy := busyUs_release c cy hc
    rw [if_pos (by omega)] at hbusy
    have e : bootReleases true latencyUs c (some t) (cy :: rest1) =
        if cy.releaseUs + busyUs (pressRelease true c cy).2 ≤ t then
          pressRelease true c cy ::
            bootReleases true latencyUs (pressRelease true c cy).1 (some t) rest1
        else [] := rfl
    rw [e, if_neg (by omega)]

theorem bootReleases_until_flag (latencyUs : Nat) (hlat : latencyUs ≤ 1000 * monitorSleepMs)
    (cys : List Cycle) :
    ∀ (c : Control) (freeUs : Nat), c.buttonPressed = false → c.shouldReboot = false →
      c.totalButtonPressTime + (cys.map cycleDuration).sum < 2 ^ 32 →
      handlerOrder true c freeUs cys = true →
      (∀ pre r post, releaseTrace true c cys = pre ++ r :: post →
        (∀ x ∈ pre, x.1.totalButtonPressTime < 5000) → 5000 ≤ r.1.totalButtonPressTime →
        bootReleases true latencyUs c none cys = pre ++ [r]) ∧
      ((∀ x ∈ releaseTrace true c cys, x.1.totalButtonPressTime < 5000) →
        bootReleases true latencyUs c none cys = releaseTrace true c cys) := by
  have hl : latencyUs ≤ 100000 := hlat
  induction cys with
  | nil =>
    intro c freeUs _ _ _ _
    refine ⟨?_, fun _ => rfl⟩
    intro pre r post hdec _ _
    have h := congrArg List.length hdec
    simp [releaseTrace] at h
    omega
  | cons cy rest ih =>
    intro c freeUs hc hflag hsum horder
    simp only [handlerOrder, Bool.and_eq_true, decide_eq_true_eq] at horder
    simp only [List.map_cons, List.sum_cons] at hsum
    obtain ⟨p1, _, p3⟩ := pressRelease_reboot true c cy hc
    have htot := pressRelease_total true c cy hc
    have hw : wrap32 (c.totalButtonPressTime + cycleDuration cy) =
        c.totalButtonPressTime + cycleDuration cy := by
      unfold wrap32; omega
    rw [hw] at htot
    have hbusy := busyUs_release c cy hc
    have etrace : releaseTrace true c (cy :: rest) =
        pressRelease true c cy :: releaseTrace true (pressRelease true c cy).1 rest := rfl
    have eboot : bootReleases true latencyUs c none (cy :: rest) =
        if monitorRound (pressRelease true c cy).1 = MonitorStep.restart then
          pressRelease true c cy ::
            bootReleases true latencyUs (pressRelease true c cy).1
              (some (cy.releaseUs + busyUs (pressRelease true c cy).2 + latencyUs)) rest
        else
          pressRelease true c cy ::
            bootReleases true latencyUs (pressRelease true c cy).1 none rest := rfl
    by_cases hthr : 5000 ≤ (pressRelease true c cy).1.totalButtonPressTime
    · have hset : (pressRelease true c cy).1.shouldReboot = true := p3.2 (Or.inr hthr)
      have hmon : monitorRound (pressRelease true c cy).1 = MonitorStep.restart := by
        unfold monitorRound
        rw [if_pos hset]
      rw [if_pos hthr] at hbusy
      have hcut := bootReleases_cut latencyUs rest (pressRelease true c cy).1
        (cy.releaseUs + busyUs (pressRelease true c cy).2)
        (cy.releaseUs + busyUs (pressRelease true c cy).2 + latencyUs) p1 hthr
        (by rw [htot]; omega) horder.2 (by omega)
      rw [eboot, if_pos hmon, hcut, etrace]
      refine ⟨?_, ?_⟩
      · intro pre r post hdec hlow _
        cases pre with
        | nil =>
          simp only [List.nil_append, List.cons.injEq] at hdec
          rw [hdec.1]
          rfl
        | cons y pre1 =>
          simp only [List.cons_append, List.cons.injEq] at hdec
          have := hlow y (by simp)
          rw [← hdec.1] at this
          omega
      · intro hall
        have := hall (pressRelease true c cy) (by simp)
        omega
    · have hclear : (pressRelease true c cy).1.shouldReboot = false := by
        cases hb : (pressRelease true c cy).1.shouldReboot with
        | false => rfl
        | true =>
          rcases p3.1 hb with h | h
          · rw [hflag] at h; exact absurd h (by decide)
          · exact absurd h hthr
      have hmon : ¬ monitorRound (pressRelease true c cy).1 = MonitorStep.restart := by
        unfold monitorRound
        rw [hclear]
        decide
      obtain ⟨i1, i2⟩ := ih (pressRelease true c cy).1
        (cy.releaseUs + busyUs (pressRelease true c cy).2) p1 hclear
        (by rw [htot]; omega) horder.2
      rw [eboot, if_neg hmon, etrace]
      refine ⟨?_, ?_⟩
      · intro pre r post hdec hlow hr
        cases pre with
        | nil =>
          simp only [List.nil_append, List.cons.injEq] at hdec
          rw [← hdec.1] at hr
          exact absurd hr hthr
        | cons y pre1 =>
          simp only [List.cons_append, List.cons.injEq] at hdec
          rw [i1 pre1 r post hdec.2 (fun z hz => hlow z (by simp [hz])) hr, hdec.1]
          rfl
      · intro hall
        rw [i2 (fun z hz => hall z (by simp [hz]))]

theorem first_or_none {α : Type} (p : α → Prop) [DecidablePred p] (l : List α) :
    (∀ x ∈ l, ¬ p x) ∨ ∃ pre r post, l = pre ++ r :: post ∧ (∀ x ∈ pre, ¬ p x) ∧ p r := by
  induction l with
  | nil => left; intro x hx; simp at hx
  | cons a rest ih =>
    by_cases ha : p a
    · right
      exact ⟨[], a, rest, rfl, by simp, ha⟩
    · rcases ih with h | ⟨pre, r, post, e, h1, h2⟩
      · left
        intro x hx
        simp only [List.mem_cons] at hx
        rcases hx with hx | hx
        · rw [hx]; exact ha
        · exact h x hx
      · right
        refine ⟨a :: pre, r, post, by rw [e]; rfl, ?_, h2⟩
        intro x hx
        simp only [List.mem_cons] at hx
        rcases hx with hx | hx
        · rw [hx]; exact ha
        · exact h1 x hx

theorem bootReleases_shape (latencyUs : Nat) (cys : List Cycle)
    (hlat : latencyUs ≤ 1000 * monitorSleepMs)
    (horder : handlerOrder true Control.boot 0 cys = true)
    (hsum : (cys.map cycleDuration).sum < 2 ^ 32) :
    (bootReleases true latencyUs Control.boot none cys = releaseTrace true Control.boot cys ∧
      ∀ x ∈ releaseTrace true Control.boot cys,
        x.1.totalButtonPressTime < 5000 ∧ rebootEmitted true x.2 = false ∧
        x.1.shouldReboot = false) ∨
    ∃ pre r post, releaseTrace true Control.boot cys = pre ++ r :: post ∧
      bootReleases true latencyUs Control.boot none cys = pre ++ [r] ∧
      (∀ x ∈ pre, x.1.totalButtonPressTime < 5000 ∧ rebootEmitted true x.2 = false ∧
        x.1.shouldReboot = false) ∧
      5000 ≤ r.1.totalButtonPressTime ∧ rebootEmitted true r.2 = true ∧
      r.1.shouldReboot = true := by
  obtain ⟨d1, d2⟩ := bootReleases_until_flag latencyUs hlat cys Control.boot 0 rfl rfl
    (by simpa [Control.boot] using hsum) horder
  have facts := releaseTrace_facts true cys Control.boot rfl
  have hnot : ∀ x ∈ releaseTrace true Control.boot cys, x.1.totalButtonPressTime < 5000 →
      rebootEmitted true x.2 = false := by
    intro x hx hlow
    cases hb : rebootEmitted true x.2 with
    | false => rfl
    | true =>
      have := (facts x hx).1.1 hb
      omega
  rcases first_or_none (fun x : Control × List Effect => 5000 ≤ x.1.totalButtonPressTime)
    (releaseTrace true Control.boot cys) with hall | ⟨pre, r, post, hdec, hpre, hr⟩
  · left
    have hlow : ∀ x ∈ releaseTrace true Control.boot cys, x.1.totalButtonPressTime < 5000 :=
      fun x hx => Nat.lt_of_not_le (hall x hx)
    refine ⟨d2 hlow, fun x hx => ⟨hlow x hx, hnot x hx (hlow x hx), ?_⟩⟩
    exact releaseTrace_flag_clear true cys Control.boot _ [] rfl rfl
      (List.append_nil _).symm hlow x hx
  · right
    have hlow : ∀ x ∈ pre, x.1.totalButtonPressTime < 5000 :=
      fun x hx => Nat.lt_of_not_le (hpre x hx)
    have hmem : ∀ x ∈ pre, x ∈ releaseTrace true Control.boot cys := by
      intro x hx
      rw [hdec]
      exact List.mem_append_left _ hx
    have hrmem : r ∈ releaseTrace true Control.boot cys := by
      rw [hdec]
      simp
    refine ⟨pre, r, post, hdec, d1 pre r post hdec hlow hr, ?_, hr, (facts r hrmem).1.2 hr,
      (facts r hrmem).2 hr⟩
    intro x hx
    exact ⟨hlow x hx, hnot x (hmem x hx) (hlow x hx),
      releaseTrace_flag_clear true cys Control.boot pre (r :: post) rfl rfl hdec hlow x hx⟩

/-- Claim C8: within one boot, for every sequence of press/release cycles from the boot
state whose callbacks run one after the other, with the monitoring loop restarting the
chip at most one sleep (100 ms) after line 448 stores the flag and the held time below
`2 ^ 32` ms: after every release that ran with the cumulative held time below 5000 ms
the reboot flag is false and no acknowledgment was emitted; the acknowledgment with the
store of the flag is emitted at most once; when some release reaches 5000 ms, the
releases that run are those up to the first such one, and the acknowledgment and the
flag come at that release and at none before it; when none does, every release runs. -/
theorem reboot_requested_once (latencyUs : Nat) (cys : List Cycle)
    (hlat : latencyUs ≤ 1000 * monitorSleepMs)
    (horder : handlerOrder true Control.boot 0 cys = true)
    (hsum : (cys.map cycleDuration).sum < 2 ^ 32) :
    (∀ x ∈ bootReleases true latencyUs Control.boot none cys,
      x.1.totalButtonPressTime < 5000 →
        x.1.shouldReboot = false ∧ rebootEmitted true x.2 = false) ∧
    ((bootReleases true latencyUs Control.boot none cys).map
        fun x => rebootEmitted true x.2).count true ≤ 1 ∧
    (∀ pre r post, releaseTrace true Control.boot cys = pre ++ r :: post →
      (∀ x ∈ pre, x.1.totalButtonPressTime < 5000) → 5000 ≤ r.1.totalButtonPressTime →
      bootReleases true latencyUs Control.boot none cys = pre ++ [r] ∧
      (bootReleases true latencyUs Control.boot none cys).map
          (fun x => (rebootEmitted true x.2, x.1.shouldReboot)) =
        List.replicate pre.length (false, false) ++ [(true, true)]) ∧
    ((∀ x ∈ releaseTrace true Control.boot cys, x.1.totalButtonPressTime < 5000) →
      bootReleases true latencyUs Control.boot none cys =
        releaseTrace true Control.boot cys) := by
  obtain ⟨d1, d2⟩ := bootReleases_until_flag latencyUs hlat cys Control.boot 0 rfl rfl
    (by simpa [Control.boot] using hsum) horder
  have facts := releaseTrace_facts true cys Control.boot rfl
  refine ⟨?_, ?_, ?_, d2⟩
  · intro x hx hlow
    rcases bootReleases_shape latencyUs cys hlat horder hsum with
      ⟨e, h⟩ | ⟨pre, r, post, _, e, hpre, hr, _, _⟩
    · rw [e] at hx
      exact ⟨(h x hx).2.2, (h x hx).2.1⟩
    · rw [e] at hx
      simp only [List.mem_append, List.mem_singleton] at hx
      rcases hx with hx | hx
      · exact ⟨(hpre x hx).2.2, (hpre x hx).2.1⟩
      · rw [hx] at hlow; omega
  · rcases bootReleases_shape latencyUs cys hlat horder hsum with
      ⟨e, h⟩ | ⟨pre, r, post, _, e, hpre, _, hr, _⟩
    · rw [e]
      have : List.count true ((releaseTrace true Control.boot cys).map
          fun x => rebootEmitted true x.2) = 0 := by
        rw [List.count_eq_zero]
        intro hmem
        obtain ⟨x, hx, hxe⟩ := List.mem_map.1 hmem
        rw [(h x hx).2.1] at hxe
        exact absurd hxe (by decide)
      omega
    · rw [e, List.map_append, List.count_append]
      have : List.count true (pre.map fun x => rebootEmitted true x.2) = 0 := by
        rw [List.count_eq_zero]
        intro hmem
        obtain ⟨x, hx, hxe⟩ := List.mem_map.1 hmem
        rw [(hpre x hx).2.1] at hxe
        exact absurd hxe (by decide)
      rw [this]
      simp [hr]
  · intro pre r post hdec hlow hr
    have e := d1 pre r post hdec hlow hr
    refine ⟨e, ?_⟩
    have hmem : ∀ x ∈ pre, x ∈ releaseTrace true Control.boot cys := by
      intro x hx
      rw [hdec]
      exact List.mem_append_left _ hx
    have hrmem : r ∈ releaseTrace true Control.boot cys := by
      rw [hdec]
      simp
    have hflag := releaseTrace_flag_clear true cys Control.boot pre (r :: post) rfl rfl hdec hlow
    have hpre : pre.map (fun x => (rebootEmitted true x.2, x.1.shouldReboot)) =
        List.replicate pre.length (false, false) := by
      rw [List.eq_replicate_iff]
      refine ⟨by simp, ?_⟩
      intro b hb
      obtain ⟨x, hx, rfl⟩ := List.mem_map.1 hb
      have h1 : rebootEmitted true x.2 = false := by
        cases hb2 : rebootEmitted true x.2 with
        | false => rfl
        | true =>
          have := (facts x (hmem x hx)).1.1 hb2
          have := hlow x hx
          omega
      rw [h1, hflag x hx]
    rw [e, List.map_append, hpre]
    simp only [List.map_cons, List.map_nil]
    rw [(facts r hrmem).1.2 hr, (facts r hrmem).2 hr]

/-- Witness of `reboot_requested_once`: with the monitoring loop 100 ms behind, five
presses of 1000 ms request the reboot at the fifth release and at none of the first
four; a sixth press of 50 ms begun right after the flashes does not run to its end. -/
theorem reboot_requested_once_witness :
    (100000 ≤ 1000 * monitorSleepMs ∧ handlerOrder true Control.boot 0 sixPresses = true ∧
      (sixPresses.map cycleDuration).sum < 2 ^ 32) ∧
    (bootReleases true 100000 Control.boot none sixPresses).map
        (fun x => (x.1.totalButtonPressTime, rebootEmitted true x.2, x.1.shouldReboot)) =
      [(1000, false, false), (2000, false, false), (3000, false, false),
       (4000, false, false), (5000, true, true)] ∧
    ((bootReleases true 100000 Control.boot none sixPresses).map
        fun x => rebootEmitted true x.2).count true ≤ 1 ∧
    (bootReleases true 100000 Control.boot none fivePresses).map
        (fun x => (rebootEmitted true x.2, x.1.shouldReboot)) =
      List.replicate 4 (false, false) ++ [(true, true)] := by
  have h6 := reboot_requested_once 100000 sixPresses (by decide) (by decide) (by decide)
  have h5 := reboot_requested_once 100000 fivePresses (by decide) (by decide) (by decide)
  refine ⟨⟨by decide, by decide, by decide⟩, by decide, h6.2.1, ?_⟩
  exact (h5.2.2.1 ((releaseTrace true Control.boot fivePresses).take 4)
    ((releaseTrace true Control.boot fivePresses).getD 4 (Control.boot, [])) []
    (by decide) (by decide) (by decide)).2

/-! ## The record line -/

theorem fmtD_natCast (n : Nat) : fmtD ((n : Nat) : Int) = fmtDec n := by
  unfold fmtD
  rw [if_neg (by omega)]
  simp

theorem toUInt16_lt (v : Int) : toUInt16 v < 65536 := by
  unfold toUInt16
  omega

theorem sample_lt (c : Control) (adc : AdcRead) (g i : Nat) : sample c adc g i < 65536 := by
  unfold sample
  split_ifs
  · exact toUInt16_lt _
  · decide

theorem fmtDec_sample_length (c : Control) (adc : AdcRead) (g i : Nat) :
    (fmtDec (sample c adc g i)).length ≤ 5 :=
  fmtDec_length_le _ 5 (by decide) (lt_of_lt_of_le (sample_lt c adc g i) (by decide))

theorem snprintf_fits (size : Nat) (t : Text) (h : t.length ≤ size - 1) :
    snprintf size t = t := by
  unfold snprintf
  exact List.take_of_length_le h

theorem dataLine_eq (c : Control) (adc : AdcRead) (i : Nat) :
    dataLine c adc i =
      fmtDec (sample c adc 1 i) ++ [','] ++ fmtDec (sample c adc 2 i) ++ [','] ++
        fmtDec (sample c adc 3 i) ++ [','] ++ fmtDec (sample c adc 4 i) := by
  have h1 := fmtDec_sample_length c adc 1 i
  have h2 := fmtDec_sample_length c adc 2 i
  have h3 := fmtDec_sample_length c adc 3 i
  have h4 := fmtDec_sample_length c adc 4 i
  have e : dataLine c adc i =
      snprintf 100 (fmtD ((sample c adc 1 i : Nat) : Int) ++ [','] ++
        fmtD ((sample c adc 2 i : Nat) : Int) ++ [','] ++
        fmtD ((sample c adc 3 i : Nat) : Int) ++ [','] ++
        fmtD ((sample c adc 4 i : Nat) : Int)) := rfl
  rw [e, fmtD_natCast, fmtD_natCast, fmtD_natCast, fmtD_natCast]
  apply snprintf_fits
  simp only [List.length_append, List.length_singleton]
  omega

theorem buildRecord_eq (c : Control) (adc : AdcRead) :
    buildRecord c adc = [','].intercalate (recordFields c adc) ++ ['\n'] := by
  have hr : List.range 4 = [0, 1, 2, 3] := by decide
  have hf : recordFields c adc =
      [fmtDec (sample c adc 1 0), fmtDec (sample c adc 2 0), fmtDec (sample c adc 3 0),
       fmtDec (sample c adc 4 0), fmtDec (sample c adc 1 1), fmtDec (sample c adc 2 1),
       fmtDec (sample c adc 3 1), fmtDec (sample c adc 4 1), fmtDec (sample c adc 1 2),
       fmtDec (sample c adc 2 2), fmtDec (sample c adc 3 2), fmtDec (sample c adc 4 2),
       fmtDec (sample c adc 1 3), fmtDec (sample c adc 2 3), fmtDec (sample c adc 3 3),
       fmtDec (sample c adc 4 3)] := rfl
  unfold buildRecord
  rw [hr, hf]
  simp only [List.foldl_cons, List.foldl_nil, appendRound, dataLine_eq]
  simp [List.intercalate, List.intersperse]

theorem csvFields_buildRecord (c : Control) (adc : AdcRead) :
    csvFields (buildRecord c adc) = recordFields c adc := by
  unfold csvFields
  rw [buildRecord_eq, List.dropLast_concat]
  apply List.splitOn_intercalate
  · intro l hl
    unfold recordFields at hl
    obtain ⟨k, _, rfl⟩ := List.mem_map.1 hl
    exact comma_not_mem_fmtDec _
  · intro h
    have := congrArg List.length h
    simp [recordFields] at this

theorem recordFields_getElem? (c : Control) (adc : AdcRead) (k : Nat) (hk : k < 16) :
    (recordFields c adc)[k]? = some (fmtDec (sample c adc (k % 4 + 1) (k / 4))) := by
  unfold recordFields
  rw [List.getElem?_map, List.getElem?_range hk]
  rfl

/-- Claim C4: for every setting of the four enable flags and all driver readings, the
record line of a recording tick is sixteen fields joined by commas and followed by one
newline, the only newline of the line; every field is the decimal text of an integer
below 65536, field `k` being the value for group `k % 4 + 1` in round `k / 4`; and every
field of a disabled group is the text `0`. -/
theorem record_has_sixteen_fields (c : Control) (adc : AdcRead) :
    buildRecord c adc = [','].intercalate (csvFields (buildRecord c adc)) ++ ['\n'] ∧
    lineCount (buildRecord c adc) = 1 ∧
    (csvFields (buildRecord c adc)).length = 16 ∧
    (∀ f ∈ csvFields (buildRecord c adc), ∃ n : Nat, n < 65536 ∧ f = fmtDec n) ∧
    (∀ k, k < 16 → (csvFields (buildRecord c adc))[k]? =
      some (fmtDec (sample c adc (k % 4 + 1) (k / 4)))) ∧
    (∀ k, k < 16 → c.groupEnabled (k % 4 + 1) = false →
      (csvFields (buildRecord c adc))[k]? = some ['0']) := by
  rw [csvFields_buildRecord]
  refine ⟨buildRecord_eq c adc, ?_, by simp [recordFields], ?_,
    fun k hk => recordFields_getElem? c adc k hk, ?_⟩
  · have hn : ∀ g i, List.count '\n' (fmtDec (sample c adc g i)) = 0 := fun g i =>
      List.count_eq_zero.2 (newline_not_mem_fmtDec _)
    have hf : recordFields c adc =
      [fmtDec (sample c adc 1 0), fmtDec (sample c adc 2 0), fmtDec (sample c adc 3 0),
       fmtDec (sample c adc 4 0), fmtDec (sample c adc 1 1), fmtDec (sample c adc 2 1),
       fmtDec (sample c adc 3 1), fmtDec (sample c adc 4 1), fmtDec (sample c adc 1 2),
       fmtDec (sample c adc 2 2), fmtDec (sample c adc 3 2), fmtDec (sample c adc 4 2),
       fmtDec (sample c adc 1 3), fmtDec (sample c adc 2 3), fmtDec (sample c adc 3 3),
       fmtDec (sample c adc 4 3)] := rfl
    unfold lineCount
    rw [buildRecord_eq, hf]
    simp [List.intercalate, List.intersperse, List.count_cons, hn]
  · intro f hf
    unfold recordFields at hf
    obtain ⟨k, _, rfl⟩ := List.mem_map.1 hf
    exact ⟨_, sample_lt c adc _ _, rfl⟩
  · intro k hk hdis
    rw [recordFields_getElem? c adc k hk]
    unfold sample
    rw [hdis]
    rfl

/-- Claim C2 fails on the code: with all groups enabled and channel `i + 1` of group `g`
reading `10 * g + i + 1`, the record is `11,21,31,41,12,...`: field 1 holds the reading
21 of channel 1 of group 2, while the header written by line 307 names column 1
`ch2_adc1`, whose reading 12 is in field 4. -/
theorem record_order_differs_from_header :
    csvFields (buildRecord Control.boot taggedAdc) =
      ["11", "21", "31", "41", "12", "22", "32", "42",
       "13", "23", "33", "43", "14", "24", "34", "44"].map String.toList ∧
    csvFields headerLine =
      ["ch1_adc1", "ch2_adc1", "ch3_adc1", "ch4_adc1", "ch1_adc2", "ch2_adc2", "ch3_adc2",
       "ch4_adc2", "ch1_adc3", "ch2_adc3", "ch3_adc3", "ch4_adc3", "ch1_adc4", "ch2_adc4",
       "ch3_adc4", "ch4_adc4"].map String.toList ∧
    taggedAdc 1 1 = 12 ∧ taggedAdc 2 0 = 21 := by
  decide

/-- Claim C3 fails on the code: with group 1 enabled and its channel 1 reading -1, the
first field of the record is `65535`, not `-1`: lines 330-333 store the reading in a
`uint16_t` before line 337 prints it. -/
theorem negative_reading_written_as_65535 :
    negativeAdc 1 0 = -1 ∧ Control.boot.ads1Enabled = true ∧
    (csvFields (buildRecord Control.boot negativeAdc))[0]? = some "65535".toList ∧
    fmtD (-1) = "-1".toList := by
  decide

/-! ## The acquisition loop -/

/-- Claim C1 fails on the code: line 326 clears `adcDataBuffer` in every round, so a
flush hands over only the record of the round that flushes.  After 10 rounds the single
write is the one-line record of round 10; after 25 rounds there were two data writes of
one line each, and the buffer holds one record while `sampleCount` is 5. -/
theorem flush_hands_over_one_record :
    (runTicks true bootDir bootLoop (recordingTicks 10)).2 =
      [⟨bootDir, "data_3.csv".toList, buildRecord Control.boot fun _ _ => 10⟩] ∧
    lineCount (buildRecord Control.boot fun _ _ => 10) = 1 ∧
    (runTicks true bootDir bootLoop (recordingTicks 25)).2.map
        (fun w => (w.fileName, lineCount w.content)) =
      [("data_3.csv".toList, 1), ("data_3.csv".toList, 1)] ∧
    (runTicks true bootDir bootLoop (recordingTicks 25)).1.sampleCount = 5 ∧
    lineCount (runTicks true bootDir bootLoop (recordingTicks 25)).1.adcDataBuffer = 1 := by
  decide

theorem dataFileName_eq (t : Nat) (ht : t < 2 ^ 63) :
    dataFileName t = "data_".toList ++ fmtDec t ++ ".csv".toList := by
  have h1 : asInt64 t = ((t : Nat) : Int) := by
    unfold asInt64
    rw [if_pos (by omega)]
  have h2 : (fmtDec t).length ≤ 19 :=
    fmtDec_length_le t 19 (by decide) (lt_of_lt_of_le ht (by norm_num))
  unfold dataFileName
  rw [h1, fmtD_natCast]
  apply snprintf_fits
  have e1 : "data_".toList.length = 5 := by decide
  have e2 : ".csv".toList.length = 4 := by decide
  simp only [List.length_append, e1, e2]
  omega

theorem dataFileName_injective (a b : Nat) (ha : a < 2 ^ 63) (hb : b < 2 ^ 63)
    (h : dataFileName a = dataFileName b) : a = b := by
  rw [dataFileName_eq a ha, dataFileName_eq b hb] at h
  exact fmtDec_injective a b (List.append_cancel_left (List.append_cancel_right h))

theorem tick_outcomes (sd : Bool) (dir : Text) (u : Loop) (inp : TickInput) :
    ((tick sd dir u inp).2 = [] ∧
      (tick sd dir u inp).1.currentFilename = u.currentFilename ∧
      (tick sd dir u inp).1.fileStartTime = u.fileStartTime) ∨
    ((tick sd dir u inp).2 = [⟨dir, u.currentFilename, buildRecord inp.ctl inp.adc⟩] ∧
      ¬ toUInt64 ((wrap64 (inp.nowUs / 1000000) : Int) - (u.fileStartTime : Int)) ≥ 60 ∧
      (tick sd dir u inp).1.currentFilename = u.currentFilename ∧
      (tick sd dir u inp).1.fileStartTime = u.fileStartTime) ∨
    ((tick sd dir u inp).2 =
        [⟨dir, u.currentFilename, buildRecord inp.ctl inp.adc⟩,
         ⟨dir, dataFileName (wrap64 (inp.nowUs / 1000000)), headerLine⟩] ∧
      toUInt64 ((wrap64 (inp.nowUs / 1000000) : Int) - (u.fileStartTime : Int)) ≥ 60 ∧
      (tick sd dir u inp).1.currentFilename = dataFileName (wrap64 (inp.nowUs / 1000000)) ∧
      (tick sd dir u inp).1.fileStartTime = wrap64 (inp.nowUs / 1000000)) := by
  unfold tick
  simp only []
  split_ifs with h1 h2 h3
  · exact Or.inr (Or.inr ⟨rfl, h3, rfl, rfl⟩)
  · exact Or.inr (Or.inl ⟨rfl, h3, rfl, rfl⟩)
  · exact Or.inl ⟨rfl, rfl, rfl⟩
  · exact Or.inl ⟨rfl, rfl, rfl⟩

theorem tick_flush (dir : Text) (u : Loop) (inp : TickInput)
    (hrec : inp.ctl.isRecording = true) (hcount : 10 ≤ u.sampleCount + 1) :
    tick true dir u inp =
      if toUInt64 ((wrap64 (inp.nowUs / 1000000) : Int) - (u.fileStartTime : Int)) ≥ 60 then
        ({ sampleCount := 0
           fileStartTime := wrap64 (inp.nowUs / 1000000)
           currentTime := wrap64 (inp.nowUs / 1000000)
           currentFilename := dataFileName (wrap64 (inp.nowUs / 1000000))
           adcDataBuffer := buildRecord inp.ctl inp.adc },
          [⟨dir, u.currentFilename, buildRecord inp.ctl inp.adc⟩,
           ⟨dir, dataFileName (wrap64 (inp.nowUs / 1000000)), headerLine⟩])
      else
        ({ u with sampleCount := 0, currentTime := wrap64 (inp.nowUs / 1000000),
                  adcDataBuffer := buildRecord inp.ctl inp.adc },
          [⟨dir, u.currentFilename, buildRecord inp.ctl inp.adc⟩]) := by
  unfold tick
  simp only []
  have h2 : True ∧ u.sampleCount + 1 ≥ 10 := ⟨trivial, hcount⟩
  rw [if_pos hrec, if_pos h2]

theorem writes_named_between (sd : Bool) (dir : Text) (future : List TickInput) :
    ∀ (u : Loop) (last : Nat),
      u.currentFilename = dataFileName u.fileStartTime →
      u.fileStartTime ≤ last / 1000000 → last < 2 ^ 63 →
      List.Chain (fun a b => a ≤ b) last (future.map TickInput.nowUs) →
      (∀ f ∈ future, f.nowUs < 2 ^ 63) →
      (runTicks sd dir u future).1.currentFilename =
        dataFileName (runTicks sd dir u future).1.fileStartTime ∧
      u.fileStartTime ≤ (runTicks sd dir u future).1.fileStartTime ∧
      (runTicks sd dir u future).1.fileStartTime < 2 ^ 63 ∧
      ∀ w ∈ (runTicks sd dir u future).2,
        ∃ x, u.fileStartTime ≤ x ∧ x ≤ (runTicks sd dir u future).1.fileStartTime ∧
          w.fileName = dataFileName x := by
  induction future with
  | nil =>
    intro u last hname hle hlast _ _
    have e : runTicks sd dir u [] = (u, []) := rfl
    rw [e]
    refine ⟨hname, Nat.le_refl _, by show u.fileStartTime < 2 ^ 63; omega, ?_⟩
    intro w hw
    simp at hw
  | cons inp rest ih =>
    intro u last hname hle hlast hchain hbound
    have hinp : inp.nowUs < 2 ^ 63 := hbound inp (by simp)
    have hmono : last ≤ inp.nowUs := by
      simp only [List.map_cons, List.chain_cons] at hchain
      exact hchain.1
    have hrest : List.Chain (fun a b => a ≤ b) inp.nowUs (rest.map TickInput.nowUs) := by
      simp only [List.map_cons, List.chain_cons] at hchain
      exact hchain.2
    have hdiv : last / 1000000 ≤ inp.nowUs / 1000000 := Nat.div_le_div_right hmono
    have hw64 : wrap64 (inp.nowUs / 1000000) = inp.nowUs / 1000000 := by
      unfold wrap64; omega
    have hstep : (tick sd dir u inp).1.currentFilename =
          dataFileName (tick sd dir u inp).1.fileStartTime ∧
        u.fileStartTime ≤ (tick sd dir u inp).1.fileStartTime ∧
        (tick sd dir u inp).1.fileStartTime ≤ inp.nowUs / 1000000 ∧
        ∀ w ∈ (tick sd dir u inp).2,
          w.fileName = dataFileName u.fileStartTime ∨
          w.fileName = dataFileName (tick sd dir u inp).1.fileStartTime := by
      rcases tick_outcomes sd dir u inp with ⟨e, e1, e2⟩ | ⟨e, _, e1, e2⟩ | ⟨e, _, e1, e2⟩
      · rw [e, e1, e2]
        exact ⟨hname, Nat.le_refl _, by omega, by simp⟩
      · rw [e, e1, e2]
        refine ⟨hname, Nat.le_refl _, by omega, ?_⟩
        intro w hw
        simp only [List.mem_singleton] at hw
        rw [hw]; exact Or.inl hname
      · rw [e, e1, e2, hw64]
        refine ⟨rfl, by omega, Nat.le_refl _, ?_⟩
        intro w hw
        simp only [List.mem_cons, List.mem_singleton, List.not_mem_nil, or_false] at hw
        rcases hw with hw | hw
        · rw [hw]; exact Or.inl hname
        · rw [hw]; exact Or.inr rfl
    obtain ⟨s1, s2, s3, s4⟩ := hstep
    obtain ⟨i1, i2, i3, i4⟩ := ih (tick sd dir u inp).1 inp.nowUs s1 s3 hinp hrest
      (fun f hf => hbound f (by simp [hf]))
    have e : runTicks sd dir u (inp :: rest) =
        ((runTicks sd dir (tick sd dir u inp).1 rest).1,
          (tick sd dir u inp).2 ++ (runTicks sd dir (tick sd dir u inp).1 rest).2) := rfl
    rw [e]
    refine ⟨i1, le_trans s2 i2, i3, ?_⟩
    intro w hw
    simp only [List.mem_append] at hw
    rcases hw with hw | hw
    · rcases s4 w hw with h | h
      · exact ⟨u.fileStartTime, Nat.le_refl _, le_trans s2 i2, h⟩
      · exact ⟨_, s2, i2, h⟩
    · obtain ⟨x, x1, x2, x3⟩ := i4 w hw
      exact ⟨x, le_trans s2 x1, x2, x3⟩

theorem startLoop_named (sd : Bool) (dir : Text) (t0 : Nat) (ht0 : t0 < 2 ^ 63) :
    (startLoop sd dir t0).1.currentFilename =
      dataFileName (startLoop sd dir t0).1.fileStartTime ∧
    (startLoop sd dir t0).1.fileStartTime = t0 / 1000000 ∧
    ∀ w ∈ (startLoop sd dir t0).2, w.fileName = dataFileName (t0 / 1000000) := by
  have hw64 : wrap64 (t0 / 1000000) = t0 / 1000000 := by
    unfold wrap64; omega
  have e : startLoop sd dir t0 =
      ({ sampleCount := 0
         fileStartTime := t0 / 1000000
         currentTime := t0 / 1000000
         currentFilename := dataFileName (t0 / 1000000)
         adcDataBuffer := [] },
       if sd then [⟨dir, dataFileName (t0 / 1000000), headerLine⟩] else []) := by
    unfold startLoop
    rw [hw64]
  rw [e]
  refine ⟨rfl, rfl, ?_⟩
  intro w hw
  cases sd
  · simp at hw
  · simp only [if_true, List.mem_singleton] at hw
    rw [hw]

/-- Claim C9: at a flush made while the current file is the one created at time `T`
(named `data_<T>.csv`), with the clock of line 356 reading `t` seconds, `T ≤ t`: if
`t < T + 60` the file name and creation time stay and the only write is the data record to
the current file, so no header is written; if `t ≥ T + 60` the record goes to the old
file, then the header is written to the new file `data_<t>.csv`, which differs from the
old one and becomes current with creation time `t`; while the clock does not run
backwards no later round writes to the old file, and no write of the run so far went to
the new file. -/
theorem rotation_at_flush (dir : Text) (s : Loop) (inp : TickInput) (future : List TickInput)
    (hrec : inp.ctl.isRecording = true) (hcount : 10 ≤ s.sampleCount + 1)
    (hname : s.currentFilename = dataFileName s.fileStartTime)
    (hclock : inp.nowUs < 2 ^ 63) (hT : s.fileStartTime ≤ inp.nowUs / 1000000) :
    (inp.nowUs / 1000000 < s.fileStartTime + 60 →
      (tick true dir s inp).1.currentFilename = s.currentFilename ∧
      (tick true dir s inp).1.fileStartTime = s.fileStartTime ∧
      (tick true dir s inp).2 = [⟨dir, s.currentFilename, buildRecord inp.ctl inp.adc⟩]) ∧
    (s.fileStartTime + 60 ≤ inp.nowUs / 1000000 →
      (tick true dir s inp).1.currentFilename = dataFileName (inp.nowUs / 1000000) ∧
      (tick true dir s inp).1.fileStartTime = inp.nowUs / 1000000 ∧
      dataFileName (inp.nowUs / 1000000) ≠ s.currentFilename ∧
      (tick true dir s inp).2 =
        [⟨dir, s.currentFilename, buildRecord inp.ctl inp.adc⟩,
         ⟨dir, dataFileName (inp.nowUs / 1000000), headerLine⟩] ∧
      (List.Chain (fun a b => a ≤ b) inp.nowUs (future.map TickInput.nowUs) →
        (∀ f ∈ future, f.nowUs < 2 ^ 63) →
        ∀ w ∈ (runTicks true dir (tick true dir s inp).1 future).2,
          w.fileName ≠ s.currentFilename) ∧
      (∀ (t0 : Nat) (past : List TickInput),
        s = (runTicks true dir (startLoop true dir t0).1 past).1 → t0 < 2 ^ 63 →
        List.Chain (fun a b => a ≤ b) t0 (past.map TickInput.nowUs) →
        (∀ f ∈ past, f.nowUs < 2 ^ 63) →
        ∀ w ∈ (startLoop true dir t0).2 ++
            (runTicks true dir (startLoop true dir t0).1 past).2,
          w.fileName ≠ dataFileName (inp.nowUs / 1000000))) := by
  have hw64 : wrap64 (inp.nowUs / 1000000) = inp.nowUs / 1000000 := by
    unfold wrap64; omega
  have hsub : toUInt64 (((inp.nowUs / 1000000 : Nat) : Int) - (s.fileStartTime : Int)) =
      inp.nowUs / 1000000 - s.fileStartTime := by
    unfold toUInt64; omega
  have e := tick_flush dir s inp hrec hcount
  rw [hw64, hsub] at e
  have hs : s.fileStartTime < 2 ^ 63 := by omega
  have ht : inp.nowUs / 1000000 < 2 ^ 63 := by omega
  constructor
  · intro hlt
    rw [e, if_neg (by omega)]
    exact ⟨rfl, rfl, rfl⟩
  · intro hge
    have hne : dataFileName (inp.nowUs / 1000000) ≠ s.currentFilename := by
      rw [hname]
      intro h
      have := dataFileName_injective _ _ ht hs h
      omega
    rw [e, if_pos (by omega)]
    refine ⟨rfl, rfl, hne, rfl, ?_, ?_⟩
    · intro hchain hbound w hw
      obtain ⟨_, _, f3, f4⟩ := writes_named_between true dir future
        { sampleCount := 0
          fileStartTime := inp.nowUs / 1000000
          currentTime := inp.nowUs / 1000000
          currentFilename := dataFileName (inp.nowUs / 1000000)
          adcDataBuffer := buildRecord inp.ctl inp.adc }
        inp.nowUs rfl (Nat.le_refl _) hclock hchain hbound
      obtain ⟨x, x1, x2, x3⟩ := f4 w hw
      rw [x3, hname]
      intro h
      have hx : x < 2 ^ 63 := lt_of_le_of_lt x2 f3
      have := dataFileName_injective _ _ hx hs h
      have x1' : inp.nowUs / 1000000 ≤ x := x1
      omega
    · intro t0 past hreach ht0 hchain hbound w hw
      obtain ⟨n1, n2, n3⟩ := startLoop_named true dir t0 ht0
      obtain ⟨_, p2, _, p4⟩ := writes_named_between true dir past (startLoop true dir t0).1
        t0 n1 (by rw [n2]) ht0 hchain hbound
      rw [← hreach] at p2 p4
      have hxlt : ∀ x, x ≤ s.fileStartTime → dataFileName x ≠
          dataFileName (inp.nowUs / 1000000) := by
        intro x hx h
        have := dataFileName_injective _ _ (by omega) ht h
        omega
      simp only [List.mem_append] at hw
      rcases hw with hw | hw
      · rw [n3 w hw]
        exact hxlt _ (by rw [← n2]; exact p2)
      · obtain ⟨x, _, x2, x3⟩ := p4 w hw
        rw [x3]
        exact hxlt x x2

/-- Witness of `rotation_at_flush`: with the file of second 3 current and nine samples
counted, a flush at 62 s keeps the file, and a flush at 70 s writes the record to
`data_3.csv`, the header to `data_70.csv`, the ten later rounds write nothing to
`data_3.csv`, and nothing was written to `data_70.csv` before. -/
theorem rotation_at_flush_witness :
    ((tick true bootDir nineBuffered (tickAt 62999999)).1.currentFilename =
        "data_3.csv".toList ∧
      (tick true bootDir nineBuffered (tickAt 62999999)).1.fileStartTime = 3 ∧
      (tick true bootDir nineBuffered (tickAt 62999999)).2 =
        [⟨bootDir, "data_3.csv".toList, buildRecord Control.boot fun _ _ => 0⟩]) ∧
    ((tick true bootDir nineBuffered (tickAt 70000000)).1.currentFilename =
        "data_70.csv".toList ∧
      (tick true bootDir nineBuffered (tickAt 70000000)).2 =
        [⟨bootDir, "data_3.csv".toList, buildRecord Control.boot fun _ _ => 0⟩,
         ⟨bootDir, "data_70.csv".toList, headerLine⟩] ∧
      (∀ w ∈ (runTicks true bootDir (tick true bootDir nineBuffered (tickAt 70000000)).1
            laterTicks).2, w.fileName ≠ "data_3.csv".toList) ∧
      (runTicks true bootDir (tick true bootDir nineBuffered (tickAt 70000000)).1
          laterTicks).2.map FileWrite.fileName = ["data_70.csv".toList] ∧
      (∀ w ∈ (startLoop true bootDir 3000000).2 ++
            (runTicks true bootDir (startLoop true bootDir 3000000).1 (recordingTicks 9)).2,
          w.fileName ≠ "data_70.csv".toList)) := by
  have h62 := (rotation_at_flush bootDir nineBuffered (tickAt 62999999) [] (by decide)
    (by decide) (by decide) (by decide) (by decide)).1 (by decide)
  have h70 := (rotation_at_flush bootDir nineBuffered (tickAt 70000000) laterTicks (by decide)
    (by decide) (by decide) (by decide) (by decide)).2 (by decide)
  refine ⟨⟨h62.1, h62.2.1, h62.2.2⟩, h70.1, h70.2.2.2.1, ?_, by decide, ?_⟩
  · exact h70.2.2.2.2.1 (by simp [laterTicks, tickAt, List.range, List.range.loop])
      (by decide)
  · exact h70.2.2.2.2.2 3000000 (recordingTicks 9) rfl (by decide)
      (by simp [recordingTicks, List.range, List.range.loop]) (by decide)

/-! ## `createAndWriteFile` -/

/-- Claim C10 fails on the code: when `createFile` returns `FR_DISK_ERR` after the
directory change succeeded, line 141 returns without the `goToDir(currentDir)` of line
170, so the call that began in `0:` ends in `0:/session_5`; a second call with the same
`dirPath` then creates and enters `0:/session_5/session_5`.  When every driver call
succeeds the directory is restored. -/
theorem error_return_keeps_session_directory :
    failedWrite.1 = false ∧
    dirAfter failedWrite = some "0:/session_5".toList ∧
    (createAndWriteFile failedWrite.2 "session_5".toList "data_5.csv".toList headerLine).2.map
        (fun sd => sd.calls.drop 3) =
      some [SDCall.createDir "session_5".toList,
            SDCall.goToDir "0:/session_5/session_5".toList,
            SDCall.createFile "data_5.csv".toList,
            SDCall.openFileAppend "data_5.csv".toList,
            SDCall.fileWrite headerLine,
            SDCall.closeFile,
            SDCall.goToDir "0:/session_5".toList] ∧
    dirAfter (createAndWriteFile (some (cardAtRoot [])) "session_5".toList
        "data_5.csv".toList headerLine) = some "0:".toList := by
  decide

end EMG8
